import Mathlib

/-!
Shallow embedding of the external data-source synchronization and scheduling
engine of the DataViz Studio backend (`backend/server.py`), together with
proofs about the claims of its specification.

Modelling conventions:
* MongoDB documents become Lean structures; collections become lists kept in
  insertion order.  `find_one`/`update_one`/`delete_one` act on the first
  matching element, `find`/`delete_many` on all matching elements,
  `to_list(n)` takes the first `n`.
* `uuid.uuid4()` is modelled by a fresh-id counter `ctr` threaded through the
  state; ids are natural numbers.
* Wall-clock timestamps are integers supplied by the caller (`now`).
* An external database reachable through an adapter is a list of tables,
  each with a catalog schema and a fetch outcome; a raised exception of an
  adapter call is an `Except.error` with the exception message.
* Python truthiness of an optional string (`if conn.password:`) is
  `pyTruthy`.
-/

namespace DataViz

/-- Connection / dataset / row ids (`uuid.uuid4()` strings in the source),
modelled as naturals drawn from a fresh-id counter. -/
abbrev Id := Nat

/-- Python truthiness of an `Optional[str]`: `None` and `""` are falsy. -/
def pyTruthy : Option String → Bool
  | none => false
  | some s => s ≠ ""

/-- `update_one({..}, {"$set": ..})`: rewrite the first element satisfying
`p` with `f`. -/
def updateFirst (p : α → Bool) (f : α → α) : List α → List α
  | [] => []
  | x :: xs => if p x then f x :: xs else x :: updateFirst p f xs

/-- `delete_one({..})`: drop the first element satisfying `p`. -/
def deleteFirst (p : α → Bool) : List α → List α
  | [] => []
  | x :: xs => if p x then xs else x :: deleteFirst p xs

/-- One column of a materialized schema: `{"name": .., "type": ..}`. -/
structure Col where
  name : String
  type : String
deriving Repr, DecidableEq

/-- A primitive row value as it appears after transport normalization. -/
inductive PVal
  | str (s : String)
  | int (n : Int)
  | bool (b : Bool)
  | null
deriving Repr, DecidableEq

/-- `type(v).__name__` for the MongoDB schema-inference path. -/
def PVal.typeName : PVal → String
  | .str _ => "str"
  | .int _ => "int"
  | .bool _ => "bool"
  | .null => "NoneType"

/-- One external row: an open field set. -/
abbrev Row := List (String × PVal)

/-- The pydantic `ScheduleConfig` request body (the redundant `conn_id`
field of the source model is omitted: the handler uses the path id). -/
structure ScheduleConfig where
  interval_type : String
  interval_value : Int
  custom_cron : Option String
  enabled : Bool
deriving Repr, DecidableEq

/-- The schedule descriptor persisted on a connection document. -/
structure ScheduleDoc where
  interval_type : String
  interval_value : Int
  custom_cron : Option String
  enabled : Bool
  description : String
  next_run : Option Int
deriving Repr, DecidableEq

/-- The pydantic `DatabaseConnectionCreate` request body. -/
structure DatabaseConnectionCreate where
  name : String
  db_type : String
  host : String
  port : Int
  database : String
  username : Option String
  password : Option String
  org_id : Option String
deriving Repr, DecidableEq

/-- A document of the `database_connections` collection.  The document has
no password field at all; `has_password` is `some true` exactly when the
key was written (absent keys are `none`). -/
structure ConnDoc where
  id : Id
  name : String
  db_type : String
  host : String
  port : Int
  database : String
  username : Option String
  org_id : Option String
  status : String
  error : Option String
  last_sync : Option Int
  last_tested : Option Int
  schedule : Option ScheduleDoc
  created_at : Int
  has_password : Option Bool
deriving Repr, DecidableEq

/-- A document of the `datasets` collection. -/
structure DatasetDoc where
  id : Id
  name : String
  source_id : Id
  source_type : String
  org_id : Option String
  row_count : Nat
  columns : List Col
  created_at : Int
deriving Repr, DecidableEq

/-- A document of the `dataset_data` collection: one materialized row
tagged with its dataset and a synthetic `_dataset_row_id`. -/
structure RowRec where
  dataset_id : Id
  row_id : Id
  fields : Row
deriving Repr, DecidableEq

/-- A live APScheduler trigger.  `IntervalTrigger(hours/days/weeks=v)` and
`CronTrigger.from_crontab(expr)`. -/
inductive Trigger
  | hours (v : Int)
  | days (v : Int)
  | weeks (v : Int)
  | cron (expr : String)
deriving Repr, DecidableEq

/-- A live APScheduler job: its string id, trigger, and the connection id
passed as argument to the sync callback. -/
structure Job where
  id : String
  trigger : Trigger
  arg : Id
deriving Repr, DecidableEq

/-- The deterministic scheduler job identity: the f-string
`f"sync_\x7bconn_id\x7d"`. -/
def jobKey (i : Id) : String := "sync_" ++ toString i

/-- Whole mutable state of the engine: the three MongoDB collections, the
in-memory password map `_connection_passwords`, the APScheduler job store,
the `_scheduled_jobs` map, and the fresh-id supply. -/
structure St where
  database_connections : List ConnDoc
  datasets : List DatasetDoc
  dataset_data : List RowRec
  passwords : List (Id × String)
  jobs : List Job
  scheduled_jobs : List (Id × String)
  ctr : Id
deriving Repr, DecidableEq

/-- `db.database_connections.find_one({"id": conn_id})`. -/
def findConn (st : St) (i : Id) : Option ConnDoc :=
  st.database_connections.find? (fun c => c.id == i)

/-- Lookup in the in-memory `_connection_passwords` dict. -/
def passwordOf (st : St) (i : Id) : Option String :=
  (st.passwords.find? (fun p => p.1 == i)).map Prod.snd

/-- Lookup in the `_scheduled_jobs` dict. -/
def scheduledJobOf (st : St) (i : Id) : Option String :=
  (st.scheduled_jobs.find? (fun p => p.1 == i)).map Prod.snd

/-- The live jobs whose sync callback targets connection `i`. -/
def jobsFor (st : St) (i : Id) : List Job :=
  st.jobs.filter (fun j => j.arg == i)

/-! ## Connection registry CRUD (`server.py`) -/

/-- The `conn_doc` dict literal built by `create_database_connection`,
including the conditional `has_password` key. -/
def mkConnDoc (a : DatabaseConnectionCreate) (i : Id) (now : Int) : ConnDoc :=
  { id := i
    name := a.name
    db_type := a.db_type
    host := a.host
    port := a.port
    database := a.database
    username := a.username
    org_id := a.org_id
    status := "pending"
    error := none
    last_sync := none
    last_tested := none
    schedule := none
    created_at := now
    has_password := if pyTruthy a.password then some true else none }

/-- `POST /database-connections`: insert the document, store the password
in the in-memory map only when truthy, and return `(id, name, status)`. -/
def create_database_connection (a : DatabaseConnectionCreate) (now : Int) (st : St) :
    St × (Id × String × String) :=
  let conn_id := st.ctr
  let doc := mkConnDoc a conn_id now
  let passwords :=
    if pyTruthy a.password then
      match a.password with
      | some pw => st.passwords ++ [(conn_id, pw)]
      | none => st.passwords
    else st.passwords
  ({ st with
      database_connections := st.database_connections ++ [doc]
      passwords := passwords
      ctr := st.ctr + 1 },
   (conn_id, doc.name, doc.status))

/-- `GET /database-connections/{conn_id}` (404 modelled as `none`). -/
def get_database_connection (st : St) (i : Id) : Option ConnDoc :=
  findConn st i

/-- `GET /database-connections` with the optional `org_id` filter and the
`to_list(100)` cap. -/
def list_database_connections (st : St) (org_id : Option String) : List ConnDoc :=
  (match org_id with
   | some o => st.database_connections.filter (fun c => c.org_id == some o)
   | none => st.database_connections : List ConnDoc).take 100

/-- `DELETE /database-connections/{conn_id}` as wired into the app
(`server.py`): only the registry document is deleted. -/
def delete_database_connection (i : Id) (st : St) : St :=
  { st with database_connections := deleteFirst (fun c => c.id == i) st.database_connections }

/-- `DELETE /database-connections/{conn_id}` of the unwired
`routes/dataviz_data_sources.py` module: additionally drops the in-memory
password entry. -/
def routes_delete_database_connection (i : Id) (st : St) : St :=
  { st with
      database_connections := deleteFirst (fun c => c.id == i) st.database_connections
      passwords := st.passwords.filter (fun p => ¬ p.1 == i) }

/-! ## External databases behind the engine adapters -/

instance {ε α : Type} [DecidableEq ε] [DecidableEq α] : DecidableEq (Except ε α)
  | .error e, .error e' => decidable_of_iff (e = e') (by simp)
  | .ok x, .ok y => decidable_of_iff (x = y) (by simp)
  | .error _, .ok _ => isFalse (by simp)
  | .ok _, .error _ => isFalse (by simp)

/-- One table/collection of an external database: its catalog schema (used
by the relational column queries) and the outcome of fetching its rows.  A
network/protocol failure of the fetch is `Except.error message`. -/
structure ExtTable where
  name : String
  columns : List Col
  rowsE : Except String (List Row)
deriving Repr, DecidableEq

/-- An external database once a connection to it has been established. -/
structure ExtDB where
  tables : List ExtTable
deriving Repr, DecidableEq

/-- Lookup of a table by name. -/
def ExtDB.getTable (ext : ExtDB) (t : String) : Option ExtTable :=
  ext.tables.find? (fun tb => tb.name == t)

/-- `{"dataset_id": .., "name": .., "rows": ..}` summary appended per
synchronized table (the scheduled MongoDB path omits `dataset_id`). -/
structure Summary where
  dataset_id : Option Id
  name : String
  rows : Nat
deriving Repr, DecidableEq

/-- Tag fetched rows with the dataset id and fresh `_dataset_row_id`s. -/
def tagRows (dsId : Id) : Id → List Row → List RowRec × Id
  | ctr, [] => ([], ctr)
  | ctr, r :: rs =>
    let (recs, ctr') := tagRows dsId (ctr + 1) rs
    (⟨dsId, ctr, r⟩ :: recs, ctr')

/-- Insert one freshly materialized dataset and its tagged rows
(`db.datasets.insert_one` followed by `db.dataset_data.insert_many`). -/
def insertDataset (conn : ConnDoc) (sourceType : String) (tbl : String)
    (columns : List Col) (data : List Row) (now : Int) (st : St) : St × Id :=
  let dsId := st.ctr
  let ds : DatasetDoc :=
    { id := dsId
      name := conn.name ++ " - " ++ tbl
      source_id := conn.id
      source_type := sourceType
      org_id := conn.org_id
      row_count := data.length
      columns := columns
      created_at := now }
  let (recs, ctr') := tagRows dsId (st.ctr + 1) data
  ({ st with
      datasets := st.datasets ++ [ds]
      dataset_data := st.dataset_data ++ recs
      ctr := ctr' }, dsId)

/-! ## Per-table materialization steps of the three engine adapters -/

/-- One iteration of the `_sync_postgresql` table loop: the
`information_schema.columns` query (empty for a missing table), the
`SELECT * .. LIMIT 10000` fetch (raises for a missing table), the silent
skip of empty tables, and the dataset materialization. -/
def pgSyncTable (conn : ConnDoc) (ext : ExtDB) (now : Int) (tbl : String) (st : St) :
    Except String (St × Option Summary) :=
  let columns : List Col :=
    match ext.getTable tbl with
    | some t => t.columns
    | none => []
  let dataE : Except String (List Row) :=
    match ext.getTable tbl with
    | some t => t.rowsE.map (fun rows => rows.take 10000)
    | none => Except.error ("relation " ++ tbl ++ " does not exist")
  match dataE with
  | .error e => .error e
  | .ok data =>
    if data.isEmpty then .ok (st, none)
    else
      let (st', dsId) := insertDataset conn "postgresql" tbl columns data now st
      .ok (st', some ⟨some dsId, tbl, data.length⟩)

/-- One iteration of the `_sync_mysql` table loop: `DESCRIBE` (raises for a
missing table), the capped fetch, the silent skip of empty tables, and the
dataset materialization. -/
def mysqlSyncTable (conn : ConnDoc) (ext : ExtDB) (now : Int) (tbl : String) (st : St) :
    Except String (St × Option Summary) :=
  match ext.getTable tbl with
  | none => .error ("Table " ++ tbl ++ " does not exist")
  | some t =>
    match t.rowsE.map (fun rows => rows.take 10000) with
    | .error e => .error e
    | .ok data =>
      if data.isEmpty then .ok (st, none)
      else
        let (st', dsId) := insertDataset conn "mysql" tbl t.columns data now st
        .ok (st', some ⟨some dsId, tbl, data.length⟩)

/-- One iteration of the ad-hoc MongoDB collection loop inside
`sync_database_connection`: `find_one` sample (a missing or empty
collection is skipped silently), schema inferred from the sample's runtime
value types with `_id` dropped, capped fetch, materialization. -/
def mongoAdhocCollection (conn : ConnDoc) (ext : ExtDB) (now : Int) (coll : String) (st : St) :
    Except String (St × Option Summary) :=
  match ext.getTable coll with
  | none => .ok (st, none)
  | some t =>
    match t.rowsE with
    | .error e => .error e
    | .ok rows =>
      match rows.head? with
      | none => .ok (st, none)
      | some sample =>
        let data := rows.take 10000
        if data.isEmpty then .ok (st, none)
        else
          let columns := (sample.filter (fun kv => ¬ kv.1 == "_id")).map
            (fun kv => Col.mk kv.1 kv.2.typeName)
          let (st', dsId) := insertDataset conn "mongodb" coll columns data now st
          .ok (st', some ⟨some dsId, coll, data.length⟩)

/-- One iteration of the simplified MongoDB collection loop inside
`_execute_scheduled_sync`: capped fetch, skip when empty, schema from the
first fetched document, and a summary without a dataset id. -/
def mongoScheduledCollection (conn : ConnDoc) (ext : ExtDB) (now : Int) (coll : String) (st : St) :
    Except String (St × Option Summary) :=
  match ext.getTable coll with
  | none => .ok (st, none)
  | some t =>
    match t.rowsE with
    | .error e => .error e
    | .ok rows =>
      let data := rows.take 10000
      if data.isEmpty then .ok (st, none)
      else
        let sample := data.head?.getD []
        let columns := sample.map (fun kv => Col.mk kv.1 kv.2.typeName)
        let (st', _) := insertDataset conn "mongodb" coll columns data now st
        .ok (st', some ⟨none, coll, data.length⟩)

/-- The shared control shape of all three adapters' table loops: process
targets sequentially, skip tables yielding no dataset, append a summary per
materialized table, and abort the remaining tables on the first raised
exception — tables already written stay committed. -/
def syncLoop (step : String → St → Except String (St × Option Summary)) :
    List String → St → List Summary → St × Except String (List Summary)
  | [], st, acc => (st, .ok acc)
  | t :: ts, st, acc =>
    match step t st with
    | .error e => (st, .error e)
    | .ok (st', none) => syncLoop step ts st' acc
    | .ok (st', some s) => syncLoop step ts st' (acc ++ [s])

/-- `_sync_postgresql`: connect, list base tables (`LIMIT 10`) or use the
single requested table, and process the first 5. -/
def sync_postgresql (conn : ConnDoc) (extE : Except String ExtDB)
    (tableName : Option String) (now : Int) (st : St) :
    St × Except String (List Summary) :=
  match extE with
  | .error e => (st, .error e)
  | .ok ext =>
    let tables : List String :=
      match tableName with
      | some t => [t]
      | none => (ext.tables.map (fun t => t.name)).take 10
    syncLoop (pgSyncTable conn ext now) (tables.take 5) st []

/-- `_sync_mysql`: connect, `SHOW TABLES` or the single requested table,
and process the first 5. -/
def sync_mysql (conn : ConnDoc) (extE : Except String ExtDB)
    (tableName : Option String) (now : Int) (st : St) :
    St × Except String (List Summary) :=
  match extE with
  | .error e => (st, .error e)
  | .ok ext =>
    let tables : List String :=
      match tableName with
      | some t => [t]
      | none => ext.tables.map (fun t => t.name)
    syncLoop (mysqlSyncTable conn ext now) (tables.take 5) st []

/-- The inline MongoDB branch of `sync_database_connection`. -/
def sync_mongodb_adhoc (conn : ConnDoc) (extE : Except String ExtDB)
    (tableName : Option String) (now : Int) (st : St) :
    St × Except String (List Summary) :=
  match extE with
  | .error e => (st, .error e)
  | .ok ext =>
    let collections : List String :=
      match tableName with
      | some t => [t]
      | none => ext.tables.map (fun t => t.name)
    syncLoop (mongoAdhocCollection conn ext now) (collections.take 5) st []

/-- The simplified MongoDB branch of `_execute_scheduled_sync` (never takes
a table filter). -/
def sync_mongodb_scheduled (conn : ConnDoc) (extE : Except String ExtDB)
    (now : Int) (st : St) : St × Except String (List Summary) :=
  match extE with
  | .error e => (st, .error e)
  | .ok ext =>
    syncLoop (mongoScheduledCollection conn ext now)
      ((ext.tables.map (fun t => t.name)).take 5) st []

/-! ## The sync endpoint and the scheduled sync callback -/

/-- Response of `POST /database-connections/{id}/sync`.  A raised
`HTTPException` that escapes the handler is `httpError`; the catch-all
error payload is `error`. -/
inductive SyncResult
  | httpError (code : Nat) (detail : String)
  | success (datasets : List Summary)
  | error (message : String)
deriving Repr, DecidableEq

/-- The `try` body of `sync_database_connection`: dispatch on the engine
kind.  The `HTTPException(400)` raised for an unsupported kind is caught by
the handler's own `except Exception`, so it surfaces as the exception's
string form. -/
def adhocRun (conn : ConnDoc) (table_name : Option String)
    (extE : Except String ExtDB) (now : Int) (st : St) :
    St × Except String (List Summary) :=
  if conn.db_type = "mongodb" then sync_mongodb_adhoc conn extE table_name now st
  else if conn.db_type = "postgresql" then sync_postgresql conn extE table_name now st
  else if conn.db_type = "mysql" then sync_mysql conn extE table_name now st
  else (st, .error ("400: Unsupported database type: " ++ conn.db_type))

/-- `sync_database_connection`: resolve the connection (404 if unknown),
run the engine dispatch, set `status="synced"` and a fresh `last_sync` on
success, and on any exception return the structured error payload while
leaving the connection document untouched. -/
def sync_database_connection (conn_id : Id) (table_name : Option String)
    (extE : Except String ExtDB) (now : Int) (st : St) : St × SyncResult :=
  match findConn st conn_id with
  | none => (st, .httpError 404 "Connection not found")
  | some conn =>
    match adhocRun conn table_name extE now st with
    | (st', .ok ds) =>
      ({ st' with
          database_connections :=
            updateFirst (fun c => c.id == conn_id)
              (fun c => { c with status := "synced", last_sync := some now })
              st'.database_connections },
       .success ds)
    | (st', .error e) => (st', .error e)

/-- The pre-delete block of `_execute_scheduled_sync`: fetch the old
datasets of this source (`to_list(100)` caps at the first 100) and for each
drop its row records and the dataset document.  The two collection updates
of each iteration touch disjoint state, so the loop is written as one fold
per collection. -/
def scheduledDelete (conn_id : Id) (st : St) : St :=
  let old := (st.datasets.filter (fun d => d.source_id == conn_id)).take 100
  { st with
      dataset_data := old.foldl
        (fun rs ds => rs.filter (fun r => ¬ r.dataset_id == ds.id)) st.dataset_data
      datasets := old.foldl
        (fun l ds => deleteFirst (fun d => d.id == ds.id) l) st.datasets }

/-- The engine dispatch of `_execute_scheduled_sync`; an unsupported engine
kind falls through to `synced = []`. -/
def scheduledFetch (conn : ConnDoc) (extE : Except String ExtDB) (now : Int) (st : St) :
    St × Except String (List Summary) :=
  if conn.db_type = "postgresql" then sync_postgresql conn extE none now st
  else if conn.db_type = "mysql" then sync_mysql conn extE none now st
  else if conn.db_type = "mongodb" then sync_mongodb_scheduled conn extE now st
  else (st, .ok [])

/-- `_execute_scheduled_sync`: return silently when the connection no
longer exists; otherwise pre-delete the old datasets, run the engine
dispatch, and persist either `status="synced"` with a fresh `last_sync` or
`status="error"` with the captured message. -/
def execute_scheduled_sync (conn_id : Id) (extE : Except String ExtDB)
    (now : Int) (st : St) : St :=
  match findConn st conn_id with
  | none => st
  | some conn =>
    let st1 := scheduledDelete conn_id st
    match scheduledFetch conn extE now st1 with
    | (st2, .ok _) =>
      { st2 with
          database_connections :=
            updateFirst (fun c => c.id == conn_id)
              (fun c => { c with status := "synced", last_sync := some now })
              st2.database_connections }
    | (st2, .error e) =>
      { st2 with
          database_connections :=
            updateFirst (fun c => c.id == conn_id)
              (fun c => { c with status := "error", error := some e })
              st2.database_connections }

/-! ## Scheduler endpoints and the startup restore -/

/-- Model of `CronTrigger.from_crontab` validity: a crontab line of five
whitespace-separated fields.  Per-field content validation of the library
parser is abstracted away; no claim depends on it. -/
def cronWellFormed (s : String) : Bool :=
  ((s.splitOn " ").filter (fun t => ¬ t == "")).length == 5

/-- Next fire time of a freshly registered trigger.  Interval triggers fire
one period after registration; the cron next-fire computation of the
library is abstracted to the registration instant. -/
def Trigger.nextRun (t : Trigger) (now : Int) : Int :=
  match t with
  | .hours v => now + v * 3600
  | .days v => now + v * 86400
  | .weeks v => now + v * 604800
  | .cron _ => now

/-- Outcome of the trigger-construction block of `set_refresh_schedule`:
a trigger plus description, the `HTTPException(400)` for an invalid
configuration, or a `ValueError` escaping `from_crontab`. -/
inductive TriggerBuild
  | ok (t : Trigger) (description : String)
  | invalidConfig
  | cronError
deriving Repr, DecidableEq

/-- The `interval_type` dispatch of `set_refresh_schedule`. -/
def buildTrigger (c : ScheduleConfig) : TriggerBuild :=
  if c.interval_type = "hourly" then
    .ok (.hours c.interval_value) ("Every " ++ toString c.interval_value ++ " hour(s)")
  else if c.interval_type = "daily" then
    .ok (.days c.interval_value) ("Every " ++ toString c.interval_value ++ " day(s)")
  else if c.interval_type = "weekly" then
    .ok (.weeks c.interval_value) ("Every " ++ toString c.interval_value ++ " week(s)")
  else if c.interval_type = "custom" then
    match c.custom_cron with
    | some expr =>
      if expr ≠ "" then
        (if cronWellFormed expr then .ok (.cron expr) ("Custom: " ++ expr) else .cronError)
      else .invalidConfig
    | none => .invalidConfig
  else .invalidConfig

/-- Response of `POST /database-connections/{id}/schedule`. -/
inductive SchedSetResult
  | httpError (code : Nat) (detail : String)
  | disabled
  | scheduled (description : String) (next_run : Option Int)
deriving Repr, DecidableEq

/-- `set_refresh_schedule`: 404 for an unknown connection; always remove a
previously registered job first; `enabled=false` persists `schedule=None`
and registers nothing; otherwise register the reconstructed trigger under
the deterministic job id and persist the full descriptor. -/
def set_refresh_schedule (conn_id : Id) (config : ScheduleConfig) (now : Int) (st : St) :
    St × SchedSetResult :=
  match findConn st conn_id with
  | none => (st, .httpError 404 "Connection not found")
  | some _ =>
    let st1 : St :=
      match scheduledJobOf st conn_id with
      | some jid => { st with jobs := st.jobs.filter (fun j => ¬ j.id == jid) }
      | none => st
    if ¬ config.enabled then
      let st2 :=
        { st1 with
            database_connections :=
              updateFirst (fun c => c.id == conn_id)
                (fun c => { c with schedule := none }) st1.database_connections
            scheduled_jobs := st1.scheduled_jobs.filter (fun p => ¬ p.1 == conn_id) }
      (st2, .disabled)
    else
      let job_id := jobKey conn_id
      match buildTrigger config with
      | .invalidConfig => (st1, .httpError 400 "Invalid schedule configuration")
      | .cronError => (st1, .httpError 500 "Internal Server Error")
      | .ok trigger desc =>
        let st2 : St :=
          { st1 with
              jobs := st1.jobs.filter (fun j => ¬ j.id == job_id) ++ [Job.mk job_id trigger conn_id]
              scheduled_jobs :=
                st1.scheduled_jobs.filter (fun p => ¬ p.1 == conn_id) ++ [(conn_id, job_id)] }
        let next_run := some (trigger.nextRun now)
        let sched : ScheduleDoc :=
          { interval_type := config.interval_type
            interval_value := config.interval_value
            custom_cron := config.custom_cron
            enabled := true
            description := desc
            next_run := next_run }
        let st3 :=
          { st2 with
              database_connections :=
                updateFirst (fun c => c.id == conn_id)
                  (fun c => { c with schedule := some sched }) st2.database_connections }
        (st3, .scheduled desc next_run)

/-- Response of `GET /database-connections/{id}/schedule`. -/
inductive SchedGetResult
  | httpError (code : Nat) (detail : String)
  | notScheduled
  | scheduled (sched : ScheduleDoc)
deriving Repr, DecidableEq

/-- `get_refresh_schedule`: the persisted descriptor, refreshed with the
live job's current next-run time when one is registered. -/
def get_refresh_schedule (conn_id : Id) (now : Int) (st : St) : SchedGetResult :=
  match findConn st conn_id with
  | none => .httpError 404 "Connection not found"
  | some conn =>
    match conn.schedule with
    | none => .notScheduled
    | some schedule =>
      let schedule' :=
        match scheduledJobOf st conn_id with
        | some jid =>
          match st.jobs.find? (fun j => j.id == jid) with
          | some job => { schedule with next_run := some (job.trigger.nextRun now) }
          | none => schedule
        | none => schedule
      .scheduled schedule'

/-- Response of `DELETE /database-connections/{id}/schedule`. -/
inductive SchedDelResult
  | httpError (code : Nat) (detail : String)
  | removed
deriving Repr, DecidableEq

/-- `delete_refresh_schedule`: stop the live job (a `JobLookupError` skips
the map cleanup inside the same `try`) and clear the persisted
descriptor. -/
def delete_refresh_schedule (conn_id : Id) (st : St) : St × SchedDelResult :=
  match findConn st conn_id with
  | none => (st, .httpError 404 "Connection not found")
  | some _ =>
    let st1 : St :=
      match scheduledJobOf st conn_id with
      | some jid =>
        if st.jobs.any (fun j => j.id == jid) then
          { st with
              jobs := st.jobs.filter (fun j => ¬ j.id == jid)
              scheduled_jobs := st.scheduled_jobs.filter (fun p => ¬ p.1 == conn_id) }
        else st
      | none => st
    ({ st1 with
        database_connections :=
          updateFirst (fun c => c.id == conn_id)
            (fun c => { c with schedule := none }) st1.database_connections },
     .removed)

/-- Trigger reconstruction of the startup restore; `none` covers both the
`continue` on an unrecognized interval configuration and a cron parse
failure swallowed by the per-connection exception handler. -/
def restoreTrigger (schedule : ScheduleDoc) : Option Trigger :=
  if schedule.interval_type = "hourly" then some (.hours schedule.interval_value)
  else if schedule.interval_type = "daily" then some (.days schedule.interval_value)
  else if schedule.interval_type = "weekly" then some (.weeks schedule.interval_value)
  else if schedule.interval_type = "custom" then
    match schedule.custom_cron with
    | some expr =>
      if expr ≠ "" then (if cronWellFormed expr then some (.cron expr) else none) else none
    | none => none
  else none

/-- The `{"schedule.enabled": True}` query predicate of the startup
restore. -/
def schedEnabled (c : ConnDoc) : Bool :=
  match c.schedule with
  | some s => s.enabled
  | none => false

/-- One iteration of the startup-restore loop: re-check the enabled flag,
reconstruct the trigger (skipping unrecognized configurations, and cron
parse failures through the per-connection exception handler) and register
the job under the deterministic id, recording it in `_scheduled_jobs`. -/
def restoreStep (s : St) (conn : ConnDoc) : St :=
  match conn.schedule with
  | none => s
  | some schedule =>
    if schedule.enabled then
      match restoreTrigger schedule with
      | none => s
      | some trigger =>
        let job_id := jobKey conn.id
        { s with
            jobs := s.jobs.filter (fun j => ¬ j.id == job_id)
              ++ [Job.mk job_id trigger conn.id]
            scheduled_jobs :=
              s.scheduled_jobs.filter (fun p => ¬ p.1 == conn.id) ++ [(conn.id, job_id)] }
    else s

/-- The schedule-restore block of the startup hook `startup_db_client`:
query the connections with `schedule.enabled == True` (`to_list(100)` caps
at the first 100) and register a job for each one whose persisted fields
reconstruct a trigger. -/
def startup_restore_schedules (st : St) : St :=
  ((st.database_connections.filter schedEnabled).take 100).foldl restoreStep st

/-! ## Generic lemmas about the document-store primitives -/

theorem deleteFirst_sublist (p : α → Bool) : ∀ l : List α, (deleteFirst p l).Sublist l
  | [] => List.Sublist.refl []
  | x :: xs => by
    unfold deleteFirst
    by_cases h : p x
    · simp [h]
    · simp only [h, if_neg, Bool.false_eq_true, not_false_iff, ite_false]
      exact (deleteFirst_sublist p xs).cons₂ x

theorem mem_of_mem_deleteFirst {p : α → Bool} {l : List α} {d : α}
    (h : d ∈ deleteFirst p l) : d ∈ l :=
  (deleteFirst_sublist p l).mem h

/-- With pairwise-distinct keys, deleting the first key match removes
exactly the element carrying that key. -/
theorem mem_deleteFirst_key {α : Type} (f : α → Nat) (i : Nat) :
    ∀ l : List α, (l.map f).Nodup →
      ∀ d, (d ∈ deleteFirst (fun x => f x == i) l ↔ d ∈ l ∧ f d ≠ i ∨ d ∈ l ∧ (∀ x ∈ l, f x ≠ i))
  | [], _, d => by simp [deleteFirst]
  | x :: xs, h, d => by
    rw [List.map_cons, List.nodup_cons] at h
    unfold deleteFirst
    by_cases hx : f x = i
    · simp only [hx, beq_self_eq_true, if_true]
      constructor
      · intro hd
        refine Or.inl ⟨List.mem_cons_of_mem x hd, ?_⟩
        intro hfd
        exact h.1 (List.mem_map.mpr ⟨d, hd, hfd.trans hx.symm⟩)
      · rintro (⟨hd, hne⟩ | ⟨hd, hall⟩)
        · rcases List.mem_cons.mp hd with rfl | hd
          · exact absurd hx hne
          · exact hd
        · exact absurd hx (hall x (List.mem_cons_self x xs))
    · have hxne : (f x == i) = false := by simp [hx]
      simp only [hxne, Bool.false_eq_true, if_false]
      have ih := mem_deleteFirst_key f i xs h.2 d
      constructor
      · intro hd
        rcases List.mem_cons.mp hd with rfl | hd
        · by_cases hall : ∀ y ∈ xs, f y ≠ i
          · exact Or.inr ⟨List.mem_cons_self d xs, by
              intro y hy
              rcases List.mem_cons.mp hy with rfl | hy
              · exact hx
              · exact hall y hy⟩
          · exact Or.inl ⟨List.mem_cons_self d xs, hx⟩
        · rcases ih.mp hd with ⟨hd', hne⟩ | ⟨hd', hall⟩
          · exact Or.inl ⟨List.mem_cons_of_mem x hd', hne⟩
          · exact Or.inr ⟨List.mem_cons_of_mem x hd', by
              intro y hy
              rcases List.mem_cons.mp hy with rfl | hy
              · exact hx
              · exact hall y hy⟩
      · rintro (⟨hd, hne⟩ | ⟨hd, hall⟩)
        · rcases List.mem_cons.mp hd with rfl | hd
          · exact List.mem_cons_self d _
          · exact List.mem_cons_of_mem x (ih.mpr (Or.inl ⟨hd, hne⟩))
        · rcases List.mem_cons.mp hd with rfl | hd
          · exact List.mem_cons_self d _
          · exact List.mem_cons_of_mem x
              (ih.mpr (Or.inr ⟨hd, fun y hy => hall y (List.mem_cons_of_mem x hy)⟩))

theorem find?_updateFirst {p : α → Bool} {f : α → α}
    (hp : ∀ a, p a = true → p (f a) = true) :
    ∀ l : List α, (updateFirst p f l).find? p = (l.find? p).map f
  | [] => rfl
  | x :: xs => by
    unfold updateFirst
    by_cases h : p x
    · simp [List.find?_cons, h, hp x h]
    · have h' : p x = false := by simpa using h
      simp [List.find?_cons, h', find?_updateFirst hp xs]

theorem updateFirst_sublist_shape {p : α → Bool} {f : α → α} :
    ∀ l : List α, (updateFirst p f l).length = l.length
  | [] => rfl
  | x :: xs => by
    unfold updateFirst
    by_cases h : p x <;> simp [h, updateFirst_sublist_shape xs]

/-- A survivor of a key-keyed `deleteFirst` on a duplicate-free list was
present before and does not carry the deleted key. -/
theorem mem_deleteFirst_key_of_nodup {α : Type} (f : α → Nat) (i : Nat)
    (l : List α) (h : (l.map f).Nodup) (d : α)
    (hd : d ∈ deleteFirst (fun x => f x == i) l) : d ∈ l ∧ f d ≠ i := by
  rcases (mem_deleteFirst_key f i l h d).mp hd with ⟨hl, hne⟩ | ⟨hl, hall⟩
  · exact ⟨hl, hne⟩
  · exact ⟨hl, hall d hl⟩

/-- A survivor of the dataset pre-delete fold of the scheduled sync was
present before and its id is not among the deleted ids. -/
theorem mem_foldl_deleteFirst_datasets :
    ∀ (xs : List DatasetDoc) (l : List DatasetDoc),
      (l.map (fun d => d.id)).Nodup →
      ∀ d, d ∈ xs.foldl (fun acc ds => deleteFirst (fun x => x.id == ds.id) acc) l →
        d ∈ l ∧ ∀ ds ∈ xs, d.id ≠ ds.id
  | [], l, _, d => fun hd => ⟨hd, by simp⟩
  | x :: xs, l, h, d => by
    intro hd
    simp only [List.foldl_cons] at hd
    have hsub : (deleteFirst (fun y => y.id == x.id) l).Sublist l :=
      deleteFirst_sublist _ l
    have hnd : ((deleteFirst (fun y => y.id == x.id) l).map (fun d => d.id)).Nodup :=
      (hsub.map _).nodup h
    have ih := mem_foldl_deleteFirst_datasets xs _ hnd d hd
    have hstep := mem_deleteFirst_key_of_nodup (fun d => d.id) x.id l h d ih.1
    refine ⟨hstep.1, ?_⟩
    intro ds hds
    rcases List.mem_cons.mp hds with rfl | hds
    · exact hstep.2
    · exact ih.2 ds hds

/-- A survivor of the row-record pre-delete fold of the scheduled sync was
present before and references none of the deleted datasets. -/
theorem mem_foldl_filter_rows :
    ∀ (xs : List DatasetDoc) (l : List RowRec) (r : RowRec),
      r ∈ xs.foldl (fun rs ds => rs.filter (fun q => ¬ q.dataset_id == ds.id)) l →
        r ∈ l ∧ ∀ ds ∈ xs, r.dataset_id ≠ ds.id
  | [], l, r => fun hr => ⟨hr, by simp⟩
  | x :: xs, l, r => by
    intro hr
    simp only [List.foldl_cons] at hr
    have ih := mem_foldl_filter_rows xs _ r hr
    have hstep := List.mem_filter.mp ih.1
    refine ⟨hstep.1, ?_⟩
    intro ds hds
    rcases List.mem_cons.mp hds with rfl | hds
    · simpa using hstep.2
    · exact ih.2 ds hds

/-! ## Specification of the per-table materialization steps -/

theorem tagRows_spec (dsId : Id) :
    ∀ (c : Id) (rows : List Row),
      (∀ r ∈ (tagRows dsId c rows).1, r.dataset_id = dsId)
      ∧ c ≤ (tagRows dsId c rows).2
  | _, [] => ⟨by simp [tagRows], le_refl _⟩
  | c, r :: rs => by
    have ih := tagRows_spec dsId (c + 1) rs
    unfold tagRows
    constructor
    · intro q hq
      rcases List.mem_cons.mp hq with rfl | hq
      · rfl
      · exact ih.1 q hq
    · exact le_trans (Nat.le_succ c) ih.2

theorem insertDataset_spec (conn : ConnDoc) (ty tbl : String) (cols : List Col)
    (data : List Row) (now : Int) (st : St) :
    (insertDataset conn ty tbl cols data now st).1.database_connections
        = st.database_connections
    ∧ (insertDataset conn ty tbl cols data now st).1.passwords = st.passwords
    ∧ (insertDataset conn ty tbl cols data now st).1.jobs = st.jobs
    ∧ (insertDataset conn ty tbl cols data now st).1.scheduled_jobs = st.scheduled_jobs
    ∧ st.ctr ≤ (insertDataset conn ty tbl cols data now st).1.ctr
    ∧ (insertDataset conn ty tbl cols data now st).1.datasets
        = st.datasets ++ [DatasetDoc.mk st.ctr (conn.name ++ " - " ++ tbl) conn.id ty
            conn.org_id data.length cols now]
    ∧ (∀ q ∈ (insertDataset conn ty tbl cols data now st).1.dataset_data,
        q ∈ st.dataset_data ∨ st.ctr ≤ q.dataset_id) := by
  have htag := tagRows_spec st.ctr (st.ctr + 1) data
  refine ⟨rfl, rfl, rfl, rfl, ?_, rfl, ?_⟩
  · exact le_trans (Nat.le_succ st.ctr) htag.2
  · intro q hq
    rcases List.mem_append.mp hq with hq | hq
    · exact Or.inl hq
    · exact Or.inr (le_of_eq ((htag.1 q hq).symm))

/-- The behaviour every per-table step shares: registry, credentials and
scheduler state untouched; the fresh-id counter never decreases; at most
one dataset added per table; new datasets have fresh ids and a row count
within the 10000 cap; new row records reference fresh dataset ids. -/
def StepOK (step : String → St → Except String (St × Option Summary)) : Prop :=
  ∀ t st st' os, step t st = .ok (st', os) →
    st'.database_connections = st.database_connections
    ∧ st'.passwords = st.passwords
    ∧ st'.jobs = st.jobs
    ∧ st'.scheduled_jobs = st.scheduled_jobs
    ∧ st.ctr ≤ st'.ctr
    ∧ st'.datasets.length ≤ st.datasets.length + 1
    ∧ (∀ d ∈ st'.datasets, d ∈ st.datasets ∨ (st.ctr ≤ d.id ∧ d.row_count ≤ 10000))
    ∧ (∀ q ∈ st'.dataset_data, q ∈ st.dataset_data ∨ st.ctr ≤ q.dataset_id)

theorem stepOK_refl_case {st : St} :
    st.database_connections = st.database_connections
    ∧ st.passwords = st.passwords
    ∧ st.jobs = st.jobs
    ∧ st.scheduled_jobs = st.scheduled_jobs
    ∧ st.ctr ≤ st.ctr
    ∧ st.datasets.length ≤ st.datasets.length + 1
    ∧ (∀ d ∈ st.datasets, d ∈ st.datasets ∨ (st.ctr ≤ d.id ∧ d.row_count ≤ 10000))
    ∧ (∀ q ∈ st.dataset_data, q ∈ st.dataset_data ∨ st.ctr ≤ q.dataset_id) :=
  ⟨rfl, rfl, rfl, rfl, le_refl _, Nat.le_succ _,
   fun d hd => Or.inl hd, fun q hq => Or.inl hq⟩

theorem stepOK_insert_case (conn : ConnDoc) (ty tbl : String) (cols : List Col)
    (data : List Row) (now : Int) (st : St) (hlen : data.length ≤ 10000) :
    (insertDataset conn ty tbl cols data now st).1.database_connections
        = st.database_connections
    ∧ (insertDataset conn ty tbl cols data now st).1.passwords = st.passwords
    ∧ (insertDataset conn ty tbl cols data now st).1.jobs = st.jobs
    ∧ (insertDataset conn ty tbl cols data now st).1.scheduled_jobs = st.scheduled_jobs
    ∧ st.ctr ≤ (insertDataset conn ty tbl cols data now st).1.ctr
    ∧ (insertDataset conn ty tbl cols data now st).1.datasets.length
        ≤ st.datasets.length + 1
    ∧ (∀ d ∈ (insertDataset conn ty tbl cols data now st).1.datasets,
        d ∈ st.datasets ∨ (st.ctr ≤ d.id ∧ d.row_count ≤ 10000))
    ∧ (∀ q ∈ (insertDataset conn ty tbl cols data now st).1.dataset_data,
        q ∈ st.dataset_data ∨ st.ctr ≤ q.dataset_id) := by
  obtain ⟨h1, h2, h3, h4, h5, h6, h7⟩ := insertDataset_spec conn ty tbl cols data now st
  refine ⟨h1, h2, h3, h4, h5, ?_, ?_, h7⟩
  · rw [h6]; simp
  · intro d hd
    rw [h6] at hd
    rcases List.mem_append.mp hd with hd | hd
    · exact Or.inl hd
    · rcases List.mem_singleton.mp hd with rfl
      exact Or.inr ⟨le_refl _, hlen⟩

theorem pgSyncTable_stepOK (conn : ConnDoc) (ext : ExtDB) (now : Int) :
    StepOK (pgSyncTable conn ext now) := by
  intro t st st' os h
  unfold pgSyncTable at h
  rcases hget : ext.getTable t with _ | tb <;> rw [hget] at h <;> dsimp only at h
  · simp at h
  · rcases hrows : tb.rowsE with e | rows <;> rw [hrows] at h <;>
      dsimp only [Except.map] at h
    · simp at h
    · by_cases hemp : (rows.take 10000).isEmpty
      · simp [hemp] at h
        obtain ⟨rfl, _⟩ := h
        exact stepOK_refl_case
      · simp [hemp] at h
        obtain ⟨rfl, _⟩ := h
        exact stepOK_insert_case conn "postgresql" t tb.columns (rows.take 10000) now st
          (by simpa using List.length_take_le 10000 rows)

theorem mysqlSyncTable_stepOK (conn : ConnDoc) (ext : ExtDB) (now : Int) :
    StepOK (mysqlSyncTable conn ext now) := by
  intro t st st' os h
  unfold mysqlSyncTable at h
  rcases hget : ext.getTable t with _ | tb <;> rw [hget] at h <;> dsimp only at h
  · simp at h
  · rcases hrows : tb.rowsE with e | rows <;> rw [hrows] at h <;>
      dsimp only [Except.map] at h
    · simp at h
    · by_cases hemp : (rows.take 10000).isEmpty
      · simp [hemp] at h
        obtain ⟨rfl, _⟩ := h
        exact stepOK_refl_case
      · simp [hemp] at h
        obtain ⟨rfl, _⟩ := h
        exact stepOK_insert_case conn "mysql" t tb.columns (rows.take 10000) now st
          (by simpa using List.length_take_le 10000 rows)

theorem mongoAdhocCollection_stepOK (conn : ConnDoc) (ext : ExtDB) (now : Int) :
    StepOK (mongoAdhocCollection conn ext now) := by
  intro t st st' os h
  unfold mongoAdhocCollection at h
  rcases hget : ext.getTable t with _ | tb <;> rw [hget] at h <;> dsimp only at h
  · simp at h
    obtain ⟨rfl, _⟩ := h
    exact stepOK_refl_case
  · rcases hrows : tb.rowsE with e | rows <;> rw [hrows] at h <;> dsimp only at h
    · simp at h
    · rcases hhead : rows.head? with _ | sample <;> rw [hhead] at h <;> dsimp only at h
      · simp at h
        obtain ⟨rfl, _⟩ := h
        exact stepOK_refl_case
      · by_cases hemp : (rows.take 10000).isEmpty
        · simp [hemp] at h
          obtain ⟨rfl, _⟩ := h
          exact stepOK_refl_case
        · simp [hemp] at h
          obtain ⟨rfl, _⟩ := h
          exact stepOK_insert_case conn "mongodb" t _ (rows.take 10000) now st
            (by simpa using List.length_take_le 10000 rows)

theorem mongoScheduledCollection_stepOK (conn : ConnDoc) (ext : ExtDB) (now : Int) :
    StepOK (mongoScheduledCollection conn ext now) := by
  intro t st st' os h
  unfold mongoScheduledCollection at h
  rcases hget : ext.getTable t with _ | tb <;> rw [hget] at h <;> dsimp only at h
  · simp at h
    obtain ⟨rfl, _⟩ := h
    exact stepOK_refl_case
  · rcases hrows : tb.rowsE with e | rows <;> rw [hrows] at h <;> dsimp only at h
    · simp at h
    · by_cases hemp : (rows.take 10000).isEmpty
      · simp [hemp] at h
        obtain ⟨rfl, _⟩ := h
        exact stepOK_refl_case
      · simp [hemp] at h
        obtain ⟨rfl, _⟩ := h
        exact stepOK_insert_case conn "mongodb" t _ (rows.take 10000) now st
          (by simpa using List.length_take_le 10000 rows)

/-- The table loop inherits the per-step guarantees, with the dataset count
bounded by the number of target tables. -/
theorem syncLoop_spec {step : String → St → Except String (St × Option Summary)}
    (h : StepOK step) :
    ∀ (ts : List String) (st : St) (acc : List Summary),
      (syncLoop step ts st acc).1.database_connections = st.database_connections
      ∧ (syncLoop step ts st acc).1.passwords = st.passwords
      ∧ (syncLoop step ts st acc).1.jobs = st.jobs
      ∧ (syncLoop step ts st acc).1.scheduled_jobs = st.scheduled_jobs
      ∧ st.ctr ≤ (syncLoop step ts st acc).1.ctr
      ∧ (syncLoop step ts st acc).1.datasets.length ≤ st.datasets.length + ts.length
      ∧ (∀ d ∈ (syncLoop step ts st acc).1.datasets,
          d ∈ st.datasets ∨ (st.ctr ≤ d.id ∧ d.row_count ≤ 10000))
      ∧ (∀ q ∈ (syncLoop step ts st acc).1.dataset_data,
          q ∈ st.dataset_data ∨ st.ctr ≤ q.dataset_id)
  | [], st, acc =>
    ⟨rfl, rfl, rfl, rfl, le_refl _, Nat.le_add_right _ _,
     fun d hd => Or.inl hd, fun q hq => Or.inl hq⟩
  | t :: ts, st, acc => by
    unfold syncLoop
    rcases hstep : step t st with e | p
    · exact ⟨rfl, rfl, rfl, rfl, le_refl _, Nat.le_add_right _ _,
        fun d hd => Or.inl hd, fun q hq => Or.inl hq⟩
    · obtain ⟨st1, os⟩ := p
      obtain ⟨hc, hpw, hj, hsj, hctr, hlen, hds, hrows⟩ := h t st st1 os hstep
      have combine : ∀ acc',
          (syncLoop step ts st1 acc').1.database_connections = st.database_connections
          ∧ (syncLoop step ts st1 acc').1.passwords = st.passwords
          ∧ (syncLoop step ts st1 acc').1.jobs = st.jobs
          ∧ (syncLoop step ts st1 acc').1.scheduled_jobs = st.scheduled_jobs
          ∧ st.ctr ≤ (syncLoop step ts st1 acc').1.ctr
          ∧ (syncLoop step ts st1 acc').1.datasets.length
              ≤ st.datasets.length + (t :: ts).length
          ∧ (∀ d ∈ (syncLoop step ts st1 acc').1.datasets,
              d ∈ st.datasets ∨ (st.ctr ≤ d.id ∧ d.row_count ≤ 10000))
          ∧ (∀ q ∈ (syncLoop step ts st1 acc').1.dataset_data,
              q ∈ st.dataset_data ∨ st.ctr ≤ q.dataset_id) := by
        intro acc'
        obtain ⟨ic, ipw, ij, isj, ictr, ilen, ids, irows⟩ := syncLoop_spec h ts st1 acc'
        refine ⟨ic.trans hc, ipw.trans hpw, ij.trans hj, isj.trans hsj,
          le_trans hctr ictr, ?_, ?_, ?_⟩
        · calc (syncLoop step ts st1 acc').1.datasets.length
              ≤ st1.datasets.length + ts.length := ilen
            _ ≤ (st.datasets.length + 1) + ts.length := by omega
            _ = st.datasets.length + (t :: ts).length := by simp [List.length_cons]; omega
        · intro d hd
          rcases ids d hd with hd1 | ⟨hd1, hd2⟩
          · rcases hds d hd1 with hd2 | ⟨hd2, hd3⟩
            · exact Or.inl hd2
            · exact Or.inr ⟨hd2, hd3⟩
          · exact Or.inr ⟨le_trans hctr hd1, hd2⟩
        · intro q hq
          rcases irows q hq with hq1 | hq1
          · rcases hrows q hq1 with hq2 | hq2
            · exact Or.inl hq2
            · exact Or.inr hq2
          · exact Or.inr (le_trans hctr hq1)
      rcases os with _ | s
      · exact combine acc
      · exact combine (acc ++ [s])

/-- What one whole adapter run guarantees about the state it returns, on
the success and on the exception path alike: registry, credentials and
scheduler state untouched; counter monotone; at most 5 datasets added; new
datasets fresh and row-capped; new row records fresh. -/
def SyncRunOK (st : St) (r : St × Except String (List Summary)) : Prop :=
  r.1.database_connections = st.database_connections
  ∧ r.1.passwords = st.passwords
  ∧ r.1.jobs = st.jobs
  ∧ r.1.scheduled_jobs = st.scheduled_jobs
  ∧ st.ctr ≤ r.1.ctr
  ∧ r.1.datasets.length ≤ st.datasets.length + 5
  ∧ (∀ d ∈ r.1.datasets, d ∈ st.datasets ∨ (st.ctr ≤ d.id ∧ d.row_count ≤ 10000))
  ∧ (∀ q ∈ r.1.dataset_data, q ∈ st.dataset_data ∨ st.ctr ≤ q.dataset_id)

theorem syncRunOK_refl (st : St) (e : Except String (List Summary)) :
    SyncRunOK st (st, e) :=
  ⟨rfl, rfl, rfl, rfl, le_refl _, Nat.le_add_right _ _,
   fun d hd => Or.inl hd, fun q hq => Or.inl hq⟩

theorem syncRunOK_of_loop {step : String → St → Except String (St × Option Summary)}
    (hstep : StepOK step) (ts : List String) (hts : ts.length ≤ 5)
    (st : St) (acc : List Summary) :
    SyncRunOK st (syncLoop step ts st acc) := by
  obtain ⟨h1, h2, h3, h4, h5, h6, h7, h8⟩ := syncLoop_spec hstep ts st acc
  exact ⟨h1, h2, h3, h4, h5, by omega, h7, h8⟩

theorem sync_postgresql_runOK (conn : ConnDoc) (extE : Except String ExtDB)
    (tn : Option String) (now : Int) (st : St) :
    SyncRunOK st (sync_postgresql conn extE tn now st) := by
  unfold sync_postgresql
  rcases extE with e | ext
  · exact syncRunOK_refl st _
  · exact syncRunOK_of_loop (pgSyncTable_stepOK conn ext now) _
      (by simpa using List.length_take_le 5 _) st []

theorem sync_mysql_runOK (conn : ConnDoc) (extE : Except String ExtDB)
    (tn : Option String) (now : Int) (st : St) :
    SyncRunOK st (sync_mysql conn extE tn now st) := by
  unfold sync_mysql
  rcases extE with e | ext
  · exact syncRunOK_refl st _
  · exact syncRunOK_of_loop (mysqlSyncTable_stepOK conn ext now) _
      (by simpa using List.length_take_le 5 _) st []

theorem sync_mongodb_adhoc_runOK (conn : ConnDoc) (extE : Except String ExtDB)
    (tn : Option String) (now : Int) (st : St) :
    SyncRunOK st (sync_mongodb_adhoc conn extE tn now st) := by
  unfold sync_mongodb_adhoc
  rcases extE with e | ext
  · exact syncRunOK_refl st _
  · exact syncRunOK_of_loop (mongoAdhocCollection_stepOK conn ext now) _
      (by simpa using List.length_take_le 5 _) st []

theorem sync_mongodb_scheduled_runOK (conn : ConnDoc) (extE : Except String ExtDB)
    (now : Int) (st : St) :
    SyncRunOK st (sync_mongodb_scheduled conn extE now st) := by
  unfold sync_mongodb_scheduled
  rcases extE with e | ext
  · exact syncRunOK_refl st _
  · exact syncRunOK_of_loop (mongoScheduledCollection_stepOK conn ext now) _
      (by simpa using List.length_take_le 5 _) st []

theorem adhocRun_runOK (conn : ConnDoc) (tn : Option String)
    (extE : Except String ExtDB) (now : Int) (st : St) :
    SyncRunOK st (adhocRun conn tn extE now st) := by
  unfold adhocRun
  by_cases h1 : conn.db_type = "mongodb"
  · simpa [h1] using sync_mongodb_adhoc_runOK conn extE tn now st
  · by_cases h2 : conn.db_type = "postgresql"
    · simpa [h1, h2] using sync_postgresql_runOK conn extE tn now st
    · by_cases h3 : conn.db_type = "mysql"
      · simpa [h1, h2, h3] using sync_mysql_runOK conn extE tn now st
      · simpa [h1, h2, h3] using syncRunOK_refl st _

theorem scheduledFetch_runOK (conn : ConnDoc) (extE : Except String ExtDB)
    (now : Int) (st : St) :
    SyncRunOK st (scheduledFetch conn extE now st) := by
  unfold scheduledFetch
  by_cases h1 : conn.db_type = "postgresql"
  · simpa [h1] using sync_postgresql_runOK conn extE none now st
  · by_cases h2 : conn.db_type = "mysql"
    · simpa [h1, h2] using sync_mysql_runOK conn extE none now st
    · by_cases h3 : conn.db_type = "mongodb"
      · simpa [h1, h2, h3] using sync_mongodb_scheduled_runOK conn extE now st
      · simpa [h1, h2, h3] using syncRunOK_refl st (.ok [])

/-! ## Concrete fixtures for the closed instances -/

/-- The empty state of a freshly started process. -/
def mtSt : St :=
  { database_connections := []
    datasets := []
    dataset_data := []
    passwords := []
    jobs := []
    scheduled_jobs := []
    ctr := 0 }

/-- A registration request carrying a secret. -/
def exCreate : DatabaseConnectionCreate :=
  { name := "prod"
    db_type := "postgresql"
    host := "db.internal"
    port := 5432
    database := "sales"
    username := some "svc"
    password := some "hunter2"
    org_id := none }

/-- The connection document produced by registering `exCreate` first. -/
def exConn : ConnDoc := mkConnDoc exCreate 0 5

/-- One connection with its stored secret and a live scheduled trigger. -/
def c2St : St :=
  { database_connections := [exConn]
    datasets := []
    dataset_data := []
    passwords := [(0, "hunter2")]
    jobs := [Job.mk "sync_0" (Trigger.hours 1) 0]
    scheduled_jobs := [(0, "sync_0")]
    ctr := 1 }

/-! ## C9 -/

/-- C9: if a scheduled trigger fires for a connection id that no longer
exists in the registry, the scheduled sync returns without modifying any
state: no datasets or row records are deleted or created and no connection
document is updated. -/
theorem scheduled_sync_unknown_conn_noop (conn_id : Id) (extE : Except String ExtDB)
    (now : Int) (st : St) (h : findConn st conn_id = none) :
    execute_scheduled_sync conn_id extE now st = st := by
  unfold execute_scheduled_sync
  rw [h]

theorem scheduled_sync_unknown_conn_noop_witness :
    findConn mtSt 7 = none
    ∧ execute_scheduled_sync 7 (Except.error "host unreachable") 0 mtSt = mtSt :=
  ⟨rfl, scheduled_sync_unknown_conn_noop 7 (Except.error "host unreachable") 0 mtSt rfl⟩

/-! ## C6 -/

/-- C6: `has_password` is written (as `true`) in the stored document iff a
truthy secret was supplied at registration; the stored document depends on
the secret only through that flag (so no registry record can contain the
plaintext secret), and get/list return only stored documents. -/
theorem registry_secret_policy (a : DatabaseConnectionCreate) (now : Int) (st : St) :
    ((create_database_connection a now st).1.database_connections
        = st.database_connections ++ [mkConnDoc a st.ctr now])
    ∧ ((mkConnDoc a st.ctr now).has_password = some true ↔ pyTruthy a.password = true)
    ∧ (∀ p', pyTruthy p' = pyTruthy a.password →
        mkConnDoc { a with password := p' } st.ctr now = mkConnDoc a st.ctr now)
    ∧ (∀ i d, get_database_connection st i = some d → d ∈ st.database_connections)
    ∧ (∀ org d, d ∈ list_database_connections st org → d ∈ st.database_connections) := by
  refine ⟨rfl, ?_, ?_, ?_, ?_⟩
  · by_cases h : pyTruthy a.password <;> simp [mkConnDoc, h]
  · intro p' h
    simp [mkConnDoc, h]
  · intro i d h
    unfold get_database_connection findConn at h
    exact List.mem_of_find?_eq_some h
  · intro org d h
    unfold list_database_connections at h
    rcases org with _ | o
    · exact List.take_subset _ _ h
    · have h' := List.take_subset _ _ h
      simp only at h'
      exact List.mem_of_mem_filter h'

theorem registry_secret_policy_witness :
    (create_database_connection exCreate 5 mtSt).1.database_connections
        = [mkConnDoc exCreate 0 5]
    ∧ (mkConnDoc exCreate 0 5).has_password = some true
    ∧ mkConnDoc { exCreate with password := some "other" } 0 5 = mkConnDoc exCreate 0 5 := by
  obtain ⟨h1, h2, h3, _, _⟩ := registry_secret_policy exCreate 5 mtSt
  exact ⟨by simpa using h1, h2.mpr (by decide), h3 (some "other") (by decide)⟩

/-! ## C2 -/

/-- C2 counterexample: deleting connection 0 through the wired endpoint
removes the registry document but leaves both the credential-store entry
and the live schedule trigger behind. -/
theorem delete_connection_leaves_secret_and_trigger :
    findConn (delete_database_connection 0 c2St) 0 = none
    ∧ passwordOf (delete_database_connection 0 c2St) 0 = some "hunter2"
    ∧ jobsFor (delete_database_connection 0 c2St) 0
        = [Job.mk "sync_0" (Trigger.hours 1) 0] := by
  decide

/-- C2 amended: the wired delete removes only the registry document —
credential store, live jobs and the scheduler map are all retained; the
unwired routes-module variant additionally drops the credential-store
entry, but it too leaves every live trigger in place. -/
theorem delete_connection_cascade_facts (i : Id) (st : St)
    (hnodup : (st.database_connections.map (fun c => c.id)).Nodup) :
    findConn (delete_database_connection i st) i = none
    ∧ (delete_database_connection i st).passwords = st.passwords
    ∧ (delete_database_connection i st).jobs = st.jobs
    ∧ (delete_database_connection i st).scheduled_jobs = st.scheduled_jobs
    ∧ findConn (routes_delete_database_connection i st) i = none
    ∧ passwordOf (routes_delete_database_connection i st) i = none
    ∧ (routes_delete_database_connection i st).jobs = st.jobs
    ∧ (routes_delete_database_connection i st).scheduled_jobs = st.scheduled_jobs := by
  have hfind : ∀ l : List ConnDoc, (l.map (fun c => c.id)).Nodup →
      (deleteFirst (fun c => c.id == i) l).find? (fun c => c.id == i) = none := by
    intro l hl
    rw [List.find?_eq_none]
    intro c hc
    have := (mem_deleteFirst_key_of_nodup (fun c => c.id) i l hl c hc).2
    simpa using this
  refine ⟨hfind _ hnodup, rfl, rfl, rfl, hfind _ hnodup, ?_, rfl, rfl⟩
  unfold routes_delete_database_connection passwordOf
  have : (st.passwords.filter (fun p => ¬ p.1 == i)).find? (fun p => p.1 == i) = none := by
    rw [List.find?_eq_none]
    intro p hp
    have := (List.mem_filter.mp hp).2
    simpa using this
  simp [this]

theorem delete_connection_cascade_facts_witness :
    (delete_database_connection 0 c2St).passwords = [(0, "hunter2")]
    ∧ passwordOf (routes_delete_database_connection 0 c2St) 0 = none
    ∧ (delete_database_connection 0 c2St).jobs = [Job.mk "sync_0" (Trigger.hours 1) 0] := by
  obtain ⟨_, h2, h3, _, _, h6, _, _⟩ := delete_connection_cascade_facts 0 c2St (by decide)
  exact ⟨h2.trans rfl, h6, h3.trans rfl⟩

/-! ## C1 -/

/-- C1 counterexample: an ad-hoc sync whose adapter connect raises returns
the structured error payload, but the persisted status of the connection is
still "pending", not "error". -/
theorem adhoc_sync_error_not_persisted :
    (sync_database_connection 0 none (Except.error "connection refused") 7 c2St).2
        = SyncResult.error "connection refused"
    ∧ (findConn (sync_database_connection 0 none
          (Except.error "connection refused") 7 c2St).1 0).map ConnDoc.status
        = some "pending" := by
  decide

/-- C1 amended: when the run raises, the ad-hoc sync endpoint returns the
structured error payload and leaves every connection document unchanged —
no error status is persisted; a scheduled sync instead persists
status="error" together with the captured message (and reports to no
caller). -/
theorem sync_error_reporting (st : St) (conn_id : Id) (tn : Option String)
    (extE : Except String ExtDB) (now : Int) (m : String) :
    ((sync_database_connection conn_id tn extE now st).2 = SyncResult.error m →
      (sync_database_connection conn_id tn extE now st).1.database_connections
        = st.database_connections)
    ∧ (∀ conn, findConn st conn_id = some conn →
        (scheduledFetch conn extE now (scheduledDelete conn_id st)).2 = Except.error m →
        (findConn (execute_scheduled_sync conn_id extE now st) conn_id).map ConnDoc.status
            = some "error"
        ∧ (findConn (execute_scheduled_sync conn_id extE now st) conn_id).map ConnDoc.error
            = some (some m)) := by
  constructor
  · intro h
    unfold sync_database_connection at h ⊢
    rcases hfind : findConn st conn_id with _ | conn
    · dsimp only
    · rw [hfind] at h
      dsimp only at h ⊢
      rcases hrun : adhocRun conn tn extE now st with ⟨st', res⟩
      rw [hrun] at h
      rcases res with e | ds <;> dsimp only at h ⊢
      · have hc := (adhocRun_runOK conn tn extE now st).1
        rw [hrun] at hc
        simpa using hc
      · simp at h
  · intro conn hfind hfetch
    unfold execute_scheduled_sync
    rw [hfind]
    dsimp only
    rcases hrun : scheduledFetch conn extE now (scheduledDelete conn_id st)
      with ⟨st2, res⟩
    rw [hrun] at hfetch
    simp only at hfetch
    rcases res with e | ds <;> dsimp only
    · have hm : e = m := by simpa using hfetch
      subst hm
      have hconns : st2.database_connections = st.database_connections := by
        have hc := (scheduledFetch_runOK conn extE now (scheduledDelete conn_id st)).1
        rw [hrun] at hc
        simpa using hc
      have hfu := find?_updateFirst
        (p := fun c : ConnDoc => c.id == conn_id)
        (f := fun c => { c with status := "error", error := some e })
        (by intro a ha; simpa using ha) st2.database_connections
      constructor <;>
        · show (List.find? _ _).map _ = _
          rw [hfu, hconns]
          unfold findConn at hfind
          rw [hfind]
          rfl
    · simp at hfetch

theorem sync_error_reporting_witness :
    (sync_database_connection 0 none (Except.error "boom") 7 c2St).1.database_connections
        = c2St.database_connections
    ∧ (findConn (execute_scheduled_sync 0 (Except.error "boom") 7 c2St) 0).map
        ConnDoc.status = some "error" := by
  obtain ⟨h1, h2⟩ := sync_error_reporting c2St 0 none (Except.error "boom") 7 "boom"
  exact ⟨h1 (by decide), (h2 exConn (by decide) (by decide)).1⟩

/-! ## Facts about the scheduled pre-delete and whole-endpoint states -/

theorem foldl_deleteFirst_length_le (xs : List DatasetDoc) :
    ∀ l : List DatasetDoc,
      (xs.foldl (fun acc ds => deleteFirst (fun x => x.id == ds.id) acc) l).length
        ≤ l.length := by
  induction xs with
  | nil => intro l; exact le_refl _
  | cons x xs ih =>
    intro l
    simp only [List.foldl_cons]
    exact le_trans (ih _) (deleteFirst_sublist _ l).length_le

theorem foldl_deleteFirst_subset (xs : List DatasetDoc) :
    ∀ l : List DatasetDoc, ∀ d,
      d ∈ xs.foldl (fun acc ds => deleteFirst (fun x => x.id == ds.id) acc) l →
        d ∈ l := by
  induction xs with
  | nil => intro l d hd; exact hd
  | cons x xs ih =>
    intro l d hd
    exact mem_of_mem_deleteFirst (ih _ d hd)

theorem foldl_filter_rows_subset (xs : List DatasetDoc) :
    ∀ l : List RowRec, ∀ r,
      r ∈ xs.foldl (fun rs ds => rs.filter (fun q => ¬ q.dataset_id == ds.id)) l →
        r ∈ l := by
  induction xs with
  | nil => intro l r hr; exact hr
  | cons x xs ih =>
    intro l r hr
    exact List.mem_of_mem_filter (ih _ r hr)

theorem scheduledDelete_spec (conn_id : Id) (st : St) :
    (scheduledDelete conn_id st).database_connections = st.database_connections
    ∧ (scheduledDelete conn_id st).passwords = st.passwords
    ∧ (scheduledDelete conn_id st).jobs = st.jobs
    ∧ (scheduledDelete conn_id st).scheduled_jobs = st.scheduled_jobs
    ∧ (scheduledDelete conn_id st).ctr = st.ctr
    ∧ (scheduledDelete conn_id st).datasets.length ≤ st.datasets.length
    ∧ (∀ d ∈ (scheduledDelete conn_id st).datasets, d ∈ st.datasets)
    ∧ (∀ q ∈ (scheduledDelete conn_id st).dataset_data, q ∈ st.dataset_data) :=
  ⟨rfl, rfl, rfl, rfl, rfl,
   foldl_deleteFirst_length_le _ _,
   fun d hd => foldl_deleteFirst_subset _ _ d hd,
   fun q hq => foldl_filter_rows_subset _ _ q hq⟩

/-- Dataset count and per-dataset facts for the whole ad-hoc endpoint. -/
theorem sync_database_connection_state (conn_id : Id) (tn : Option String)
    (extE : Except String ExtDB) (now : Int) (st : St) :
    (sync_database_connection conn_id tn extE now st).1.datasets.length
        ≤ st.datasets.length + 5
    ∧ (∀ d ∈ (sync_database_connection conn_id tn extE now st).1.datasets,
        d ∈ st.datasets ∨ (st.ctr ≤ d.id ∧ d.row_count ≤ 10000)) := by
  unfold sync_database_connection
  split
  next => exact ⟨Nat.le_add_right _ _, fun d hd => Or.inl hd⟩
  next conn heq =>
    have hOK := adhocRun_runOK conn tn extE now st
    split
    next st' ds heq2 =>
      rw [heq2] at hOK
      obtain ⟨_, _, _, _, _, hlen, hds, _⟩ := hOK
      dsimp only at hlen hds
      exact ⟨hlen, hds⟩
    next st' e heq2 =>
      rw [heq2] at hOK
      obtain ⟨_, _, _, _, _, hlen, hds, _⟩ := hOK
      dsimp only at hlen hds
      exact ⟨hlen, hds⟩

/-- Dataset count and per-dataset facts for the scheduled sync callback. -/
theorem execute_scheduled_sync_state (conn_id : Id) (extE : Except String ExtDB)
    (now : Int) (st : St) :
    (execute_scheduled_sync conn_id extE now st).datasets.length
        ≤ st.datasets.length + 5
    ∧ (∀ d ∈ (execute_scheduled_sync conn_id extE now st).datasets,
        d ∈ st.datasets ∨ (st.ctr ≤ d.id ∧ d.row_count ≤ 10000)) := by
  unfold execute_scheduled_sync
  split
  next => exact ⟨Nat.le_add_right _ _, fun d hd => Or.inl hd⟩
  next conn heq =>
    obtain ⟨_, _, _, _, hctr1, hlen1, hds1, _⟩ := scheduledDelete_spec conn_id st
    have hOK := scheduledFetch_runOK conn extE now (scheduledDelete conn_id st)
    have hmain : ∀ st2 : St,
        st2.datasets.length ≤ (scheduledDelete conn_id st).datasets.length + 5 →
        (∀ d ∈ st2.datasets, d ∈ (scheduledDelete conn_id st).datasets
          ∨ ((scheduledDelete conn_id st).ctr ≤ d.id ∧ d.row_count ≤ 10000)) →
        st2.datasets.length ≤ st.datasets.length + 5
        ∧ ∀ d ∈ st2.datasets,
            d ∈ st.datasets ∨ (st.ctr ≤ d.id ∧ d.row_count ≤ 10000) := by
      intro st2 hlen2 hds2
      refine ⟨by omega, ?_⟩
      intro d hd
      rcases hds2 d hd with hd1 | ⟨hd1, hd2⟩
      · exact Or.inl (hds1 d hd1)
      · rw [hctr1] at hd1
        exact Or.inr ⟨hd1, hd2⟩
    dsimp only
    split
    next st2 ds heq2 =>
      rw [heq2] at hOK
      obtain ⟨_, _, _, _, _, hlen2, hds2, _⟩ := hOK
      dsimp only at hlen2 hds2
      exact hmain st2 hlen2 hds2
    next st2 e heq2 =>
      rw [heq2] at hOK
      obtain ⟨_, _, _, _, _, hlen2, hds2, _⟩ := hOK
      dsimp only at hlen2 hds2
      exact hmain st2 hlen2 hds2

/-! ## All-tables-empty runs -/

theorem syncLoop_all_skip {step : String → St → Except String (St × Option Summary)} :
    ∀ (ts : List String) (st : St) (acc : List Summary),
      (∀ t ∈ ts, step t st = .ok (st, none)) →
      syncLoop step ts st acc = (st, .ok acc)
  | [], st, acc, _ => rfl
  | t :: ts, st, acc, h => by
    unfold syncLoop
    rw [h t (List.mem_cons_self t ts)]
    exact syncLoop_all_skip ts st acc (fun t' ht' => h t' (List.mem_cons_of_mem t ht'))

theorem getTable_of_mem_names {ext : ExtDB} {t : String}
    (ht : t ∈ ext.tables.map (fun tb => tb.name)) :
    ∃ tb, ext.getTable t = some tb ∧ tb ∈ ext.tables := by
  rcases hg : ext.getTable t with _ | tb
  · exfalso
    unfold ExtDB.getTable at hg
    rw [List.find?_eq_none] at hg
    obtain ⟨tb, htb, rfl⟩ := List.mem_map.mp ht
    exact hg tb htb (by simp)
  · exact ⟨tb, rfl, List.mem_of_find?_eq_some hg⟩

theorem pgSyncTable_skip (conn : ConnDoc) (ext : ExtDB) (now : Int) (t : String) (st : St)
    (h : ∀ tb ∈ ext.tables, tb.rowsE = .ok ([] : List Row))
    (ht : t ∈ ext.tables.map (fun tb => tb.name)) :
    pgSyncTable conn ext now t st = .ok (st, none) := by
  obtain ⟨tb, hg, hmem⟩ := getTable_of_mem_names ht
  unfold pgSyncTable
  rw [hg]
  dsimp only
  rw [h tb hmem]
  rfl

theorem mysqlSyncTable_skip (conn : ConnDoc) (ext : ExtDB) (now : Int) (t : String) (st : St)
    (h : ∀ tb ∈ ext.tables, tb.rowsE = .ok ([] : List Row))
    (ht : t ∈ ext.tables.map (fun tb => tb.name)) :
    mysqlSyncTable conn ext now t st = .ok (st, none) := by
  obtain ⟨tb, hg, hmem⟩ := getTable_of_mem_names ht
  unfold mysqlSyncTable
  rw [hg]
  dsimp only
  rw [h tb hmem]
  rfl

theorem mongoAdhocCollection_skip (conn : ConnDoc) (ext : ExtDB) (now : Int)
    (t : String) (st : St)
    (h : ∀ tb ∈ ext.tables, tb.rowsE = .ok ([] : List Row))
    (ht : t ∈ ext.tables.map (fun tb => tb.name)) :
    mongoAdhocCollection conn ext now t st = .ok (st, none) := by
  obtain ⟨tb, hg, hmem⟩ := getTable_of_mem_names ht
  unfold mongoAdhocCollection
  rw [hg]
  dsimp only
  rw [h tb hmem]
  rfl

theorem mongoScheduledCollection_skip (conn : ConnDoc) (ext : ExtDB) (now : Int)
    (t : String) (st : St)
    (h : ∀ tb ∈ ext.tables, tb.rowsE = .ok ([] : List Row))
    (ht : t ∈ ext.tables.map (fun tb => tb.name)) :
    mongoScheduledCollection conn ext now t st = .ok (st, none) := by
  obtain ⟨tb, hg, hmem⟩ := getTable_of_mem_names ht
  unfold mongoScheduledCollection
  rw [hg]
  dsimp only
  rw [h tb hmem]
  rfl

theorem adhocRun_empty (conn : ConnDoc) (ext : ExtDB) (now : Int) (st : St)
    (h : ∀ tb ∈ ext.tables, tb.rowsE = .ok ([] : List Row))
    (hdb : conn.db_type = "mongodb" ∨ conn.db_type = "postgresql"
      ∨ conn.db_type = "mysql") :
    adhocRun conn none (.ok ext) now st = (st, .ok []) := by
  unfold adhocRun
  rcases hdb with hdb | hdb | hdb <;> rw [hdb]
  · rw [if_pos rfl]
    unfold sync_mongodb_adhoc
    exact syncLoop_all_skip _ st []
      (fun t ht => mongoAdhocCollection_skip conn ext now t st h
        (List.take_subset _ _ ht))
  · rw [if_neg (by decide), if_pos rfl]
    unfold sync_postgresql
    exact syncLoop_all_skip _ st []
      (fun t ht => pgSyncTable_skip conn ext now t st h
        (List.take_subset _ _ (List.take_subset _ _ ht)))
  · rw [if_neg (by decide), if_neg (by decide), if_pos rfl]
    unfold sync_mysql
    exact syncLoop_all_skip _ st []
      (fun t ht => mysqlSyncTable_skip conn ext now t st h
        (List.take_subset _ _ ht))

/-! ## C8 -/

/-- C8: a sync without a table filter materializes at most 5 datasets
(ad-hoc and scheduled alike); every dataset created by any sync has
`row_count` at most 10000; and a sync over only-empty tables skips every
table silently, succeeding with no datasets and an untouched dataset
store. -/
theorem sync_caps (st : St) (conn_id : Id) (tn : Option String)
    (extE : Except String ExtDB) (now : Int) :
    ((sync_database_connection conn_id none extE now st).1.datasets.length
        ≤ st.datasets.length + 5)
    ∧ (∀ d ∈ (sync_database_connection conn_id tn extE now st).1.datasets,
        d ∈ st.datasets ∨ d.row_count ≤ 10000)
    ∧ ((execute_scheduled_sync conn_id extE now st).datasets.length
        ≤ st.datasets.length + 5)
    ∧ (∀ d ∈ (execute_scheduled_sync conn_id extE now st).datasets,
        d ∈ st.datasets ∨ d.row_count ≤ 10000)
    ∧ (∀ conn ext, findConn st conn_id = some conn →
        extE = Except.ok ext →
        (∀ tb ∈ ext.tables, tb.rowsE = .ok ([] : List Row)) →
        (conn.db_type = "mongodb" ∨ conn.db_type = "postgresql"
          ∨ conn.db_type = "mysql") →
        sync_database_connection conn_id none extE now st
          = ({ st with
                database_connections :=
                  updateFirst (fun c => c.id == conn_id)
                    (fun c => { c with status := "synced", last_sync := some now })
                    st.database_connections },
             SyncResult.success [])) := by
  refine ⟨(sync_database_connection_state conn_id none extE now st).1, ?_, ?_, ?_, ?_⟩
  · intro d hd
    rcases (sync_database_connection_state conn_id tn extE now st).2 d hd with h | ⟨_, h⟩
    · exact Or.inl h
    · exact Or.inr h
  · exact (execute_scheduled_sync_state conn_id extE now st).1
  · intro d hd
    rcases (execute_scheduled_sync_state conn_id extE now st).2 d hd with h | ⟨_, h⟩
    · exact Or.inl h
    · exact Or.inr h
  · intro conn ext hfind hok hempty hdb
    subst hok
    unfold sync_database_connection
    rw [hfind]
    dsimp only
    rw [adhocRun_empty conn ext now st hempty hdb]

/-- The external database with a single empty table. -/
def extEmpty : ExtDB := ⟨[⟨"users", [⟨"id", "integer"⟩], .ok []⟩]⟩

theorem sync_caps_witness :
    ((sync_database_connection 0 none (Except.ok extEmpty) 7 c2St).1.datasets.length
        ≤ c2St.datasets.length + 5)
    ∧ (sync_database_connection 0 none (Except.ok extEmpty) 7 c2St).2
        = SyncResult.success [] := by
  obtain ⟨h1, _, _, _, h5⟩ := sync_caps c2St 0 none (Except.ok extEmpty) 7
  exact ⟨h1, by
    rw [h5 exConn extEmpty (by decide) rfl (by decide) (Or.inr (Or.inl (by decide)))]⟩

/-! ## C3 -/

/-- The dataset set a scheduled sync actually deletes: the first 100
fetched datasets of this source. -/
theorem scheduledDelete_survivors (conn_id : Id) (st : St)
    (hnodup : (st.datasets.map (fun d => d.id)).Nodup) :
    ∀ d ∈ (scheduledDelete conn_id st).datasets,
      d ∈ st.datasets
      ∧ ∀ ds ∈ (st.datasets.filter (fun d => d.source_id == conn_id)).take 100,
          d.id ≠ ds.id := by
  intro d hd
  exact mem_foldl_deleteFirst_datasets _ st.datasets hnodup d hd

theorem scheduledDelete_row_survivors (conn_id : Id) (st : St) :
    ∀ r ∈ (scheduledDelete conn_id st).dataset_data,
      r ∈ st.dataset_data
      ∧ ∀ ds ∈ (st.datasets.filter (fun d => d.source_id == conn_id)).take 100,
          r.dataset_id ≠ ds.id := by
  intro r hr
  exact mem_foldl_filter_rows _ st.dataset_data r hr

/-- C3 amended: a scheduled sync pre-deletes the **first 100 fetched**
datasets of its connection (the query is capped at 100); whenever the
connection has at most 100 pre-existing datasets this is all of them, and
then no dataset with `source_id = C` that predates the sync survives, nor
does any row record referencing one. -/
theorem scheduled_sync_replaces_bounded (st : St) (conn_id : Id)
    (extE : Except String ExtDB) (now : Int) (conn : ConnDoc)
    (hfind : findConn st conn_id = some conn)
    (hle : (st.datasets.filter (fun d => d.source_id == conn_id)).length ≤ 100)
    (hnodup : (st.datasets.map (fun d => d.id)).Nodup)
    (hfresh : ∀ d ∈ st.datasets, d.id < st.ctr) :
    (∀ d ∈ (execute_scheduled_sync conn_id extE now st).datasets,
        d.source_id = conn_id → d ∉ st.datasets)
    ∧ (∀ r ∈ (execute_scheduled_sync conn_id extE now st).dataset_data,
        ∀ d ∈ st.datasets, d.source_id = conn_id → r.dataset_id ≠ d.id) := by
  have htake : (st.datasets.filter (fun d => d.source_id == conn_id)).take 100
      = st.datasets.filter (fun d => d.source_id == conn_id) :=
    List.take_of_length_le hle
  have hmemold : ∀ d ∈ st.datasets, d.source_id = conn_id →
      d ∈ (st.datasets.filter (fun d => d.source_id == conn_id)).take 100 := by
    intro d hd hsrc
    rw [htake]
    exact List.mem_filter.mpr ⟨hd, by simp [hsrc]⟩
  have hds1 := scheduledDelete_survivors conn_id st hnodup
  have hrs1 := scheduledDelete_row_survivors conn_id st
  have hctr1 : (scheduledDelete conn_id st).ctr = st.ctr := rfl
  have hOK := scheduledFetch_runOK conn extE now (scheduledDelete conn_id st)
  have hmain : ∀ st2 : St,
      (∀ d ∈ st2.datasets, d ∈ (scheduledDelete conn_id st).datasets
        ∨ ((scheduledDelete conn_id st).ctr ≤ d.id ∧ d.row_count ≤ 10000)) →
      (∀ q ∈ st2.dataset_data, q ∈ (scheduledDelete conn_id st).dataset_data
        ∨ (scheduledDelete conn_id st).ctr ≤ q.dataset_id) →
      (∀ d ∈ st2.datasets, d.source_id = conn_id → d ∉ st.datasets)
      ∧ (∀ r ∈ st2.dataset_data,
          ∀ d ∈ st.datasets, d.source_id = conn_id → r.dataset_id ≠ d.id) := by
    intro st2 hds2 hrs2
    constructor
    · intro d hd hsrc hmem
      rcases hds2 d hd with hd1 | ⟨hd1, _⟩
      · exact (hds1 d hd1).2 d (hmemold d hmem hsrc) rfl
      · rw [hctr1] at hd1
        exact absurd hd1 (Nat.not_le.mpr (hfresh d hmem))
    · intro r hr d hd hsrc
      rcases hrs2 r hr with hr1 | hr1
      · exact (hrs1 r hr1).2 d (hmemold d hd hsrc)
      · rw [hctr1] at hr1
        intro heqid
        rw [heqid] at hr1
        exact absurd hr1 (Nat.not_le.mpr (hfresh d hd))
  unfold execute_scheduled_sync
  split
  next heq => rw [hfind] at heq; cases heq
  next conn' heq =>
    rw [hfind] at heq
    injection heq with heqc
    subst heqc
    dsimp only
    split
    next st2 ds heq2 =>
      rw [heq2] at hOK
      obtain ⟨_, _, _, _, _, _, hds2, hrs2⟩ := hOK
      dsimp only at hds2 hrs2
      exact hmain st2 hds2 hrs2
    next st2 e heq2 =>
      rw [heq2] at hOK
      obtain ⟨_, _, _, _, _, _, hds2, hrs2⟩ := hOK
      dsimp only at hds2 hrs2
      exact hmain st2 hds2 hrs2

/-- A dataset already attributed to connection 0 before the sync. -/
def mkOldDs (k : Nat) : DatasetDoc :=
  { id := k
    name := "old"
    source_id := 0
    source_type := "mongodb"
    org_id := none
    row_count := 1
    columns := []
    created_at := 0 }

/-- A MongoDB registration request. -/
def exMongoCreate : DatabaseConnectionCreate :=
  { exCreate with name := "m", db_type := "mongodb" }

/-- A MongoDB connection that has accumulated 101 datasets (ad-hoc syncs
never pre-delete, so this is reachable). -/
def c3St : St :=
  { database_connections := [mkConnDoc exMongoCreate 0 5]
    datasets := (List.range 101).map mkOldDs
    dataset_data := []
    passwords := []
    jobs := []
    scheduled_jobs := []
    ctr := 1000 }

/-- C3 counterexample: with 101 pre-existing datasets for the connection,
the scheduled sync (here over an external database with no collections)
completes with status "synced" yet the 101st old dataset survives. -/
theorem scheduled_sync_delete_cap_exceeded :
    mkOldDs 100 ∈ c3St.datasets
    ∧ mkOldDs 100 ∈ (execute_scheduled_sync 0 (Except.ok ⟨[]⟩) 9 c3St).datasets
    ∧ (findConn (execute_scheduled_sync 0 (Except.ok ⟨[]⟩) 9 c3St) 0).map
        ConnDoc.status = some "synced" := by
  decide

/-- A small scheduled-sync state: one MongoDB connection with one old
dataset and one of its row records. -/
def c3SmallSt : St :=
  { database_connections := [mkConnDoc exMongoCreate 0 5]
    datasets := [mkOldDs 1]
    dataset_data := [⟨1, 2, []⟩]
    passwords := []
    jobs := []
    scheduled_jobs := []
    ctr := 10 }

theorem scheduled_sync_replaces_bounded_witness :
    (∀ d ∈ (execute_scheduled_sync 0 (Except.ok ⟨[]⟩) 9 c3SmallSt).datasets,
        d.source_id = 0 → d ∉ c3SmallSt.datasets)
    ∧ (∀ r ∈ (execute_scheduled_sync 0 (Except.ok ⟨[]⟩) 9 c3SmallSt).dataset_data,
        ∀ d ∈ c3SmallSt.datasets, d.source_id = 0 → r.dataset_id ≠ d.id) :=
  scheduled_sync_replaces_bounded c3SmallSt 0 (Except.ok ⟨[]⟩) 9
    (mkConnDoc exMongoCreate 0 5) (by decide) (by decide) (by decide) (by decide)

/-! ## C10 -/

/-- C10 amended: a scheduled sync for an engine kind outside the three
supported ones raises nothing: it runs the capped pre-delete (the first
100 fetched datasets — all of them when the connection has at most 100),
materializes no new dataset, and persists status "synced" with a fresh
`last_sync`. -/
theorem scheduled_sync_unsupported_engine (st : St) (conn_id : Id)
    (extE : Except String ExtDB) (now : Int) (conn : ConnDoc)
    (hfind : findConn st conn_id = some conn)
    (h1 : conn.db_type ≠ "postgresql") (h2 : conn.db_type ≠ "mysql")
    (h3 : conn.db_type ≠ "mongodb") :
    (execute_scheduled_sync conn_id extE now st).datasets
        = (scheduledDelete conn_id st).datasets
    ∧ (execute_scheduled_sync conn_id extE now st).dataset_data
        = (scheduledDelete conn_id st).dataset_data
    ∧ (∀ d ∈ (execute_scheduled_sync conn_id extE now st).datasets, d ∈ st.datasets)
    ∧ (findConn (execute_scheduled_sync conn_id extE now st) conn_id).map
        ConnDoc.status = some "synced"
    ∧ (findConn (execute_scheduled_sync conn_id extE now st) conn_id).map
        ConnDoc.last_sync = some (some now)
    ∧ ((st.datasets.filter (fun d => d.source_id == conn_id)).length ≤ 100 →
        (st.datasets.map (fun d => d.id)).Nodup →
        ∀ d ∈ (execute_scheduled_sync conn_id extE now st).datasets,
          d.source_id ≠ conn_id) := by
  have hfetch : scheduledFetch conn extE now (scheduledDelete conn_id st)
      = (scheduledDelete conn_id st, .ok []) := by
    unfold scheduledFetch
    rw [if_neg h1, if_neg h2, if_neg h3]
  have hsurv := scheduledDelete_survivors conn_id
  have hsub := (scheduledDelete_spec conn_id st).2.2.2.2.2.2.1
  unfold execute_scheduled_sync
  split
  next heq => rw [hfind] at heq; cases heq
  next conn' heq =>
    rw [hfind] at heq
    injection heq with heqc
    subst heqc
    dsimp only
    split
    next st2 ds heq2 =>
      rw [hfetch] at heq2
      rw [Prod.mk.injEq] at heq2
      obtain ⟨h21, _⟩ := heq2
      subst h21
      have hfu := find?_updateFirst
        (p := fun c : ConnDoc => c.id == conn_id)
        (f := fun c => { c with status := "synced", last_sync := some now })
        (by intro a ha; simpa using ha)
        (scheduledDelete conn_id st).database_connections
      have hconns : (scheduledDelete conn_id st).database_connections
          = st.database_connections := rfl
      refine ⟨rfl, rfl, hsub, ?_, ?_, ?_⟩
      · show (List.find? _ _).map _ = _
        rw [hfu, hconns]
        unfold findConn at hfind
        rw [hfind]
        rfl
      · show (List.find? _ _).map _ = _
        rw [hfu, hconns]
        unfold findConn at hfind
        rw [hfind]
        rfl
      · intro hle hnodup d hd hsrc
        obtain ⟨hmem, hall⟩ := hsurv st hnodup d hd
        have : d ∈ (st.datasets.filter (fun x => x.source_id == conn_id)).take 100 := by
          rw [List.take_of_length_le hle]
          exact List.mem_filter.mpr ⟨hmem, by simp [hsrc]⟩
        exact hall d this rfl
    next st2 e heq2 =>
      rw [hfetch] at heq2
      simp at heq2

/-- An unsupported-engine registration request. -/
def exOracleCreate : DatabaseConnectionCreate :=
  { exCreate with name := "o", db_type := "oracle" }

/-- An unsupported-engine connection that has accumulated 101 datasets. -/
def c10St : St :=
  { database_connections := [mkConnDoc exOracleCreate 0 5]
    datasets := (List.range 101).map mkOldDs
    dataset_data := []
    passwords := []
    jobs := []
    scheduled_jobs := []
    ctr := 1000 }

/-- C10 counterexample: for an unsupported engine kind with 101
pre-existing datasets the scheduled sync still reports "synced", but it
does not delete all of the connection's datasets: the 101st survives. -/
theorem scheduled_sync_unsupported_cap_exceeded :
    mkOldDs 100 ∈ c10St.datasets
    ∧ mkOldDs 100
        ∈ (execute_scheduled_sync 0 (Except.error "no adapter") 9 c10St).datasets
    ∧ (findConn (execute_scheduled_sync 0 (Except.error "no adapter") 9 c10St) 0).map
        ConnDoc.status = some "synced" := by
  decide

/-- A small unsupported-engine state with a single old dataset. -/
def c10SmallSt : St :=
  { database_connections := [mkConnDoc exOracleCreate 0 5]
    datasets := [mkOldDs 1]
    dataset_data := []
    passwords := []
    jobs := []
    scheduled_jobs := []
    ctr := 10 }

theorem scheduled_sync_unsupported_engine_witness :
    (∀ d ∈ (execute_scheduled_sync 0 (Except.error "no adapter") 9 c10SmallSt).datasets,
        d ∈ c10SmallSt.datasets)
    ∧ (findConn (execute_scheduled_sync 0 (Except.error "no adapter") 9 c10SmallSt) 0).map
        ConnDoc.status = some "synced"
    ∧ (∀ d ∈ (execute_scheduled_sync 0 (Except.error "no adapter") 9 c10SmallSt).datasets,
        d.source_id ≠ 0) := by
  obtain ⟨_, _, h3, h4, _, h6⟩ := scheduled_sync_unsupported_engine c10SmallSt 0
    (Except.error "no adapter") 9 (mkConnDoc exOracleCreate 0 5)
    (by decide) (by decide) (by decide) (by decide)
  exact ⟨h3, h4, h6 (by decide) (by decide)⟩

/-! ## Scheduler well-formedness and the schedule endpoints -/

/-- The consistency the scheduler state maintains: every live job carries
the deterministic key of its connection argument, no two live jobs target
the same connection, every `_scheduled_jobs` entry stores exactly the key
of its connection, and every live job is recorded in `_scheduled_jobs`. -/
def SchedulerWF (st : St) : Prop :=
  (∀ j ∈ st.jobs, j.id = jobKey j.arg)
  ∧ (st.jobs.map (fun j => j.arg)).Nodup
  ∧ (∀ p ∈ st.scheduled_jobs, p.2 = jobKey p.1)
  ∧ (∀ j ∈ st.jobs, ∃ p ∈ st.scheduled_jobs, p.1 = j.arg)

instance (st : St) : Decidable (SchedulerWF st) := by
  unfold SchedulerWF
  infer_instance

theorem nodup_filter_key_length_le {α : Type} (f : α → Nat) :
    ∀ l : List α, (l.map f).Nodup → ∀ k, (l.filter (fun x => f x == k)).length ≤ 1
  | [], _, k => by simp
  | x :: xs, h, k => by
    rw [List.map_cons, List.nodup_cons] at h
    by_cases hx : f x = k
    · have hnil : xs.filter (fun y => f y == k) = [] := by
        rw [List.filter_eq_nil]
        intro y hy
        simp only [beq_iff_eq]
        intro hyk
        exact h.1 (List.mem_map.mpr ⟨y, hy, (hyk.trans hx.symm)⟩)
      simp [List.filter_cons, hx, hnil]
    · have := nodup_filter_key_length_le f xs h.2 k
      simp only [List.filter_cons, beq_iff_eq, hx, if_false]
      simpa using this

/-- Core facts about the replace-and-register step of the enabled
`set_refresh_schedule` path, for any sublist `js1` of the previous jobs
(the handler may have already removed the mapped job). -/
theorem set_enabled_core (st : St) (i : Id) (t : Trigger) (js1 : List Job)
    (sched : ScheduleDoc)
    (hsub : js1.Sublist st.jobs) (hwf : SchedulerWF st)
    (hconn : (findConn st i).isSome) :
    ((js1.filter (fun j => ¬ j.id == jobKey i) ++ [Job.mk (jobKey i) t i]).filter
        (fun j => j.arg == i) = [Job.mk (jobKey i) t i])
    ∧ (∀ j ∈ js1.filter (fun j => ¬ j.id == jobKey i) ++ [Job.mk (jobKey i) t i],
        j.id = jobKey j.arg)
    ∧ ((js1.filter (fun j => ¬ j.id == jobKey i)
        ++ [Job.mk (jobKey i) t i]).map (fun j => j.arg)).Nodup
    ∧ (∀ p ∈ st.scheduled_jobs.filter (fun p => ¬ p.1 == i) ++ [(i, jobKey i)],
        p.2 = jobKey p.1)
    ∧ (∀ j ∈ js1.filter (fun j => ¬ j.id == jobKey i) ++ [Job.mk (jobKey i) t i],
        ∃ p ∈ st.scheduled_jobs.filter (fun p => ¬ p.1 == i) ++ [(i, jobKey i)],
          p.1 = j.arg)
    ∧ (List.find? (fun c => c.id == i)
        (updateFirst (fun c => c.id == i)
          (fun c => { c with schedule := some sched })
          st.database_connections)).isSome := by
  obtain ⟨hwf1, hwf2, hwf3, hwf4⟩ := hwf
  have hnotarg : ∀ j ∈ js1.filter (fun j => ¬ j.id == jobKey i), j.arg ≠ i := by
    intro j hj harg
    have hj1 := List.mem_filter.mp hj
    have hjid : j.id = jobKey i := by
      rw [hwf1 j (hsub.subset hj1.1), harg]
    have := hj1.2
    simp [hjid] at this
  refine ⟨?_, ?_, ?_, ?_, ?_, ?_⟩
  · rw [List.filter_append]
    have h1 : (js1.filter (fun j => ¬ j.id == jobKey i)).filter
        (fun j => j.arg == i) = [] := by
      rw [List.filter_eq_nil]
      intro j hj
      simpa using hnotarg j hj
    rw [h1]
    simp
  · intro j hj
    rcases List.mem_append.mp hj with hj | hj
    · exact hwf1 j (hsub.subset (List.mem_filter.mp hj).1)
    · rcases List.mem_singleton.mp hj with rfl
      rfl
  · rw [List.map_append]
    rw [List.nodup_append]
    refine ⟨?_, by simp, ?_⟩
    · exact (((List.filter_sublist js1).trans hsub).map _).nodup hwf2
    · intro a ha hb
      simp only [List.map_cons, List.map_nil, List.mem_singleton] at hb
      subst hb
      obtain ⟨j, hj, hja⟩ := List.mem_map.mp ha
      exact hnotarg j hj hja
  · intro p hp
    rcases List.mem_append.mp hp with hp | hp
    · exact hwf3 p (List.mem_filter.mp hp).1
    · rcases List.mem_singleton.mp hp with rfl
      rfl
  · intro j hj
    rcases List.mem_append.mp hj with hj | hj
    · obtain ⟨p, hp, hpi⟩ := hwf4 j (hsub.subset (List.mem_filter.mp hj).1)
      refine ⟨p, List.mem_append.mpr (Or.inl (List.mem_filter.mpr ⟨hp, ?_⟩)), hpi⟩
      have hne : p.1 ≠ i := fun hpi2 => hnotarg j hj (by rw [← hpi, hpi2])
      simpa using hne
    · rcases List.mem_singleton.mp hj with rfl
      exact ⟨(i, jobKey i), List.mem_append.mpr (Or.inr (List.mem_singleton.mpr rfl)), rfl⟩
  · obtain ⟨conn, hfind⟩ := Option.isSome_iff_exists.mp hconn
    have hfu := find?_updateFirst
      (p := fun c : ConnDoc => c.id == i)
      (f := fun c => { c with schedule := some sched })
      (by intro a ha; simpa using ha) st.database_connections
    rw [hfu]
    unfold findConn at hfind
    rw [hfind]
    rfl

/-- Setting an enabled, valid schedule leaves exactly one live trigger for
the connection — the newly registered one — and preserves scheduler
well-formedness and the connection's existence. -/
theorem set_refresh_enabled_spec (st : St) (i : Id) (c : ScheduleConfig)
    (now : Int) (t : Trigger) (d : String)
    (hwf : SchedulerWF st) (hconn : (findConn st i).isSome)
    (hb : buildTrigger c = .ok t d) (he : c.enabled = true) :
    jobsFor (set_refresh_schedule i c now st).1 i = [Job.mk (jobKey i) t i]
    ∧ SchedulerWF (set_refresh_schedule i c now st).1
    ∧ (findConn (set_refresh_schedule i c now st).1 i).isSome := by
  obtain ⟨conn, hfind⟩ := Option.isSome_iff_exists.mp hconn
  have hconn' : (findConn st i).isSome := by rw [hfind]; rfl
  rcases hjob : scheduledJobOf st i with _ | jid
  · unfold set_refresh_schedule
    split
    next heq => rw [hfind] at heq; cases heq
    next conn' heq =>
      dsimp only
      rw [hjob]
      dsimp only
      rw [if_neg (show ¬ ¬ (c.enabled = true) by simp [he]), hb]
      dsimp only
      obtain ⟨h1, h2, h3, h4, h5, h6⟩ :=
        set_enabled_core st i t st.jobs _ (List.Sublist.refl _) hwf hconn'
      exact ⟨h1, ⟨h2, h3, h4, h5⟩, h6⟩
  · unfold set_refresh_schedule
    split
    next heq => rw [hfind] at heq; cases heq
    next conn' heq =>
      dsimp only
      rw [hjob]
      dsimp only
      rw [if_neg (show ¬ ¬ (c.enabled = true) by simp [he]), hb]
      dsimp only
      obtain ⟨h1, h2, h3, h4, h5, h6⟩ :=
        set_enabled_core st i t (st.jobs.filter (fun j => ¬ j.id == jid)) _
          (List.filter_sublist _) hwf hconn'
      exact ⟨h1, ⟨h2, h3, h4, h5⟩, h6⟩

/-- C7: `setSchedule` with `enabled=false` answers "disabled", persists
`schedule = null` on the connection and creates no trigger; afterwards
`getSchedule` returns not-scheduled and no live trigger for that
connection remains. -/
theorem set_refresh_disabled_spec (st : St) (i : Id) (c : ScheduleConfig)
    (now now' : Int) (conn : ConnDoc)
    (hwf : SchedulerWF st) (hfind : findConn st i = some conn)
    (he : c.enabled = false) :
    (set_refresh_schedule i c now st).2 = SchedSetResult.disabled
    ∧ findConn (set_refresh_schedule i c now st).1 i
        = some { conn with schedule := none }
    ∧ jobsFor (set_refresh_schedule i c now st).1 i = []
    ∧ (∀ j ∈ (set_refresh_schedule i c now st).1.jobs, j ∈ st.jobs)
    ∧ get_refresh_schedule i now' (set_refresh_schedule i c now st).1
        = SchedGetResult.notScheduled := by
  obtain ⟨hwf1, hwf2, hwf3, hwf4⟩ := hwf
  have hfu := find?_updateFirst
    (p := fun c : ConnDoc => c.id == i)
    (f := fun c => { c with schedule := none })
    (by intro a ha; simpa using ha) st.database_connections
  have hget : ∀ st' : St, findConn st' i = some { conn with schedule := none } →
      get_refresh_schedule i now' st' = SchedGetResult.notScheduled := by
    intro st' hf
    unfold get_refresh_schedule
    rw [hf]
  rcases hjob : scheduledJobOf st i with _ | jid
  · have hnoarg : ∀ j ∈ st.jobs, ¬ j.arg = i := by
      intro j hj harg
      obtain ⟨p, hp, hpi⟩ := hwf4 j hj
      unfold scheduledJobOf at hjob
      rw [Option.map_eq_none'] at hjob
      rw [List.find?_eq_none] at hjob
      exact hjob p hp (by simp [hpi, harg])
    unfold set_refresh_schedule
    split
    next heq => rw [hfind] at heq; cases heq
    next conn' heq =>
      dsimp only
      rw [hjob]
      dsimp only
      rw [if_pos (show ¬ (c.enabled = true) by simp [he])]
      dsimp only
      have hfc : List.find? (fun c => c.id == i)
          (updateFirst (fun c => c.id == i)
            (fun c => { c with schedule := none }) st.database_connections)
          = some { conn with schedule := none } := by
        rw [hfu]
        unfold findConn at hfind
        rw [hfind]
        rfl
      refine ⟨rfl, hfc, ?_, fun j hj => hj, hget _ hfc⟩
      show st.jobs.filter (fun j => j.arg == i) = []
      rw [List.filter_eq_nil]
      intro j hj
      simpa using hnoarg j hj
  · obtain ⟨p, hpfind, hpjid⟩ : ∃ p, st.scheduled_jobs.find? (fun p => p.1 == i) = some p
        ∧ p.2 = jid := by
      unfold scheduledJobOf at hjob
      rcases hmp : st.scheduled_jobs.find? (fun p => p.1 == i) with _ | p
      · rw [hmp] at hjob; cases hjob
      · rw [hmp] at hjob
        exact ⟨p, hmp, by simpa using hjob⟩
    have hpmem := List.mem_of_find?_eq_some hpfind
    have hpi : p.1 = i := by simpa using List.find?_some hpfind
    have hjid : jid = jobKey i := by
      rw [← hpjid, hwf3 p hpmem, hpi]
    unfold set_refresh_schedule
    split
    next heq => rw [hfind] at heq; cases heq
    next conn' heq =>
      dsimp only
      rw [hjob]
      dsimp only
      rw [if_pos (show ¬ (c.enabled = true) by simp [he])]
      dsimp only
      have hfc : List.find? (fun c => c.id == i)
          (updateFirst (fun c => c.id == i)
            (fun c => { c with schedule := none }) st.database_connections)
          = some { conn with schedule := none } := by
        rw [hfu]
        unfold findConn at hfind
        rw [hfind]
        rfl
      refine ⟨rfl, hfc, ?_, fun j hj => List.mem_of_mem_filter hj, hget _ hfc⟩
      show (st.jobs.filter (fun j => ¬ j.id == jid)).filter (fun j => j.arg == i) = []
      rw [List.filter_eq_nil]
      intro j hj
      have hj1 := List.mem_filter.mp hj
      have hid : j.id = jobKey j.arg := hwf1 j hj1.1
      intro harg
      have harg' : j.arg = i := by simpa using harg
      have : j.id = jid := by rw [hid, harg', hjid]
      have h2 := hj1.2
      simp [this] at h2

/-! ## C4 and C7 -/

/-- C4: with a well-formed scheduler, at most one live trigger exists per
connection at any time, and calling `setSchedule` twice in succession with
valid enabled configurations leaves exactly one live trigger for the
connection — the one registered by the second call. -/
theorem set_schedule_single_live_trigger (st : St) (i : Id)
    (c1 c2 : ScheduleConfig) (now1 now2 : Int)
    (t1 t2 : Trigger) (d1 d2 : String)
    (hwf : SchedulerWF st) (hconn : (findConn st i).isSome)
    (hb1 : buildTrigger c1 = .ok t1 d1) (he1 : c1.enabled = true)
    (hb2 : buildTrigger c2 = .ok t2 d2) (he2 : c2.enabled = true) :
    jobsFor (set_refresh_schedule i c2 now2
        (set_refresh_schedule i c1 now1 st).1).1 i = [Job.mk (jobKey i) t2 i]
    ∧ ∀ k, (jobsFor (set_refresh_schedule i c2 now2
        (set_refresh_schedule i c1 now1 st).1).1 k).length ≤ 1 := by
  obtain ⟨h11, h12, h13⟩ := set_refresh_enabled_spec st i c1 now1 t1 d1 hwf hconn hb1 he1
  obtain ⟨h21, h22, h23⟩ := set_refresh_enabled_spec _ i c2 now2 t2 d2 h12 h13 hb2 he2
  refine ⟨h21, ?_⟩
  intro k
  exact nodup_filter_key_length_le (fun j : Job => j.arg) _ h22.2.1 k

/-- A daily-interval schedule configuration. -/
def cfgDaily : ScheduleConfig :=
  { interval_type := "daily", interval_value := 1, custom_cron := none, enabled := true }

/-- A two-hourly schedule configuration. -/
def cfgHourly : ScheduleConfig :=
  { interval_type := "hourly", interval_value := 2, custom_cron := none, enabled := true }

theorem set_schedule_single_live_trigger_witness :
    jobsFor (set_refresh_schedule 0 cfgHourly 20
        (set_refresh_schedule 0 cfgDaily 10 c2St).1).1 0
      = [Job.mk (jobKey 0) (Trigger.hours 2) 0]
    ∧ (jobsFor (set_refresh_schedule 0 cfgHourly 20
        (set_refresh_schedule 0 cfgDaily 10 c2St).1).1 5).length ≤ 1 := by
  obtain ⟨h1, h2⟩ := set_schedule_single_live_trigger c2St 0 cfgDaily cfgHourly 10 20
    (Trigger.days 1) (Trigger.hours 2) "Every 1 day(s)" "Every 2 hour(s)"
    (by decide) (by decide) (by decide) (by decide) (by decide) (by decide)
  exact ⟨h1, h2 5⟩

/-- A disabled schedule configuration. -/
def cfgOff : ScheduleConfig :=
  { interval_type := "daily", interval_value := 1, custom_cron := none, enabled := false }

/-- The schedule descriptor a prior enabled `setSchedule` persisted. -/
def exSchedDoc : ScheduleDoc :=
  { interval_type := "daily", interval_value := 1, custom_cron := none,
    enabled := true, description := "Every 1 day(s)", next_run := some 86410 }

/-- One connection carrying a previously enabled persisted schedule and
its live trigger. -/
def c7St : St :=
  { c2St with database_connections := [{ exConn with schedule := some exSchedDoc }] }

theorem set_refresh_disabled_witness :
    (set_refresh_schedule 0 cfgOff 30 c7St).2 = SchedSetResult.disabled
    ∧ jobsFor (set_refresh_schedule 0 cfgOff 30 c7St).1 0 = []
    ∧ get_refresh_schedule 0 40 (set_refresh_schedule 0 cfgOff 30 c7St).1
        = SchedGetResult.notScheduled := by
  obtain ⟨h1, _, h3, _, h5⟩ := set_refresh_disabled_spec c7St 0 cfgOff 30 40
    { exConn with schedule := some exSchedDoc } (by decide) (by decide) (by decide)
  exact ⟨h1, h3, h5⟩

/-! ## C5 -/

/-- The job the startup restore registers for a restorable connection. -/
def restoredJob (c : ConnDoc) : Job :=
  Job.mk (jobKey c.id) ((c.schedule.bind restoreTrigger).getD (Trigger.hours 1)) c.id

theorem restoreStep_eq (s : St) (c : ConnDoc)
    (hen : schedEnabled c = true)
    (hres : (c.schedule.bind restoreTrigger).isSome) :
    restoreStep s c
      = { s with
            jobs := s.jobs.filter (fun j => ¬ j.id == jobKey c.id) ++ [restoredJob c]
            scheduled_jobs :=
              s.scheduled_jobs.filter (fun p => ¬ p.1 == c.id)
                ++ [(c.id, jobKey c.id)] } := by
  rcases hsch : c.schedule with _ | sched
  · simp [schedEnabled, hsch] at hen
  · have hen' : sched.enabled = true := by simpa [schedEnabled, hsch] using hen
    rw [hsch] at hres
    rcases htr : restoreTrigger sched with _ | tr
    · rw [Option.some_bind, htr] at hres
      cases hres
    · unfold restoreStep
      rw [hsch]
      dsimp only
      rw [if_pos hen', htr]
      dsimp only
      unfold restoredJob
      rw [hsch]
      simp [htr]

theorem restore_fold_jobs :
    ∀ (cs : List ConnDoc) (st : St),
      (∀ c ∈ cs, schedEnabled c = true ∧ (c.schedule.bind restoreTrigger).isSome) →
      ((st.jobs.map (fun j => j.id)) ++ cs.map (fun c => jobKey c.id)).Nodup →
      (cs.foldl restoreStep st).jobs = st.jobs ++ cs.map restoredJob
  | [], st, _, _ => by simp
  | c :: cs, st, hvalid, hkeys => by
    have hc := hvalid c (List.mem_cons_self c cs)
    have hstep := restoreStep_eq st c hc.1 hc.2
    rw [List.map_cons] at hkeys
    have hdisj : ∀ a ∈ st.jobs.map (fun j => j.id),
        a ∈ jobKey c.id :: cs.map (fun c => jobKey c.id) → False :=
      fun a ha hb => (List.nodup_append.mp hkeys).2.2 ha hb
    have hfid : st.jobs.filter (fun j => ¬ j.id == jobKey c.id) = st.jobs := by
      rw [List.filter_eq_self]
      intro j hj
      have : j.id ≠ jobKey c.id := by
        intro hid
        exact hdisj (jobKey c.id) (List.mem_map.mpr ⟨j, hj, hid⟩)
          (List.mem_cons_self _ _)
      simpa using this
    have hjobs1 : (restoreStep st c).jobs = st.jobs ++ [restoredJob c] := by
      rw [hstep]
      dsimp only
      rw [hfid]
    have hkeys' : ((restoreStep st c).jobs.map (fun j => j.id)
        ++ cs.map (fun c => jobKey c.id)).Nodup := by
      rw [hjobs1, List.map_append, List.append_assoc]
      simpa using hkeys
    have ih := restore_fold_jobs cs (restoreStep st c)
      (fun c' hc' => hvalid c' (List.mem_cons_of_mem c hc')) hkeys'
    rw [List.foldl_cons, ih, hjobs1, List.map_cons, List.append_assoc]
    rfl

theorem filter_restoredJob_map (c : ConnDoc) :
    ∀ E : List ConnDoc, (E.map (fun c => jobKey c.id)).Nodup → c ∈ E →
      (E.map restoredJob).filter (fun j => j.arg == c.id) = [restoredJob c]
  | [], _, hc => absurd hc (List.not_mem_nil c)
  | e :: es, hk, hc => by
    rw [List.map_cons, List.nodup_cons] at hk
    rw [List.map_cons]
    rcases List.mem_cons.mp hc with rfl | hc
    · rw [List.filter_cons, if_pos (by simp [restoredJob])]
      have hnil : (es.map restoredJob).filter (fun j => j.arg == c.id) = [] := by
        rw [List.filter_eq_nil]
        intro j hj
        obtain ⟨c', hc', rfl⟩ := List.mem_map.mp hj
        simp only [restoredJob, beq_iff_eq]
        intro hid
        exact hk.1 (List.mem_map.mpr ⟨c', hc', congrArg jobKey hid⟩)
      rw [hnil]
    · have hne : (restoredJob e).arg ≠ c.id := by
        simp only [restoredJob]
        intro hid
        exact hk.1 (List.mem_map.mpr ⟨c, hc, (congrArg jobKey hid).symm⟩)
      rw [List.filter_cons, if_neg (by simpa using hne)]
      exact filter_restoredJob_map c es hk.2 hc

/-- C5 amended: started with an empty scheduler, when the registry holds
at most 100 connections with `schedule.enabled=true` (the startup query is
capped at 100), each of whose persisted fields reconstruct a trigger
(recognized interval kind, or custom with a parseable cron), and their
deterministic job keys are pairwise distinct, the restore registers
exactly one live trigger per such connection — reconstructed from the
persisted interval/cron fields and keyed `"sync_" + id`. -/
theorem startup_restore_spec (st : St)
    (hjobs : st.jobs = [])
    (hlen : (st.database_connections.filter schedEnabled).length ≤ 100)
    (hvalid : ∀ c ∈ st.database_connections.filter schedEnabled,
        (c.schedule.bind restoreTrigger).isSome)
    (hkeys : ((st.database_connections.filter schedEnabled).map
        (fun c => jobKey c.id)).Nodup) :
    (startup_restore_schedules st).jobs
        = (st.database_connections.filter schedEnabled).map restoredJob
    ∧ (startup_restore_schedules st).jobs.length
        = (st.database_connections.filter schedEnabled).length
    ∧ (∀ c ∈ st.database_connections.filter schedEnabled,
        jobsFor (startup_restore_schedules st) c.id = [restoredJob c]) := by
  have htake : (st.database_connections.filter schedEnabled).take 100
      = st.database_connections.filter schedEnabled := List.take_of_length_le hlen
  have hvalid' : ∀ c ∈ st.database_connections.filter schedEnabled,
      schedEnabled c = true ∧ (c.schedule.bind restoreTrigger).isSome :=
    fun c hc => ⟨(List.mem_filter.mp hc).2, hvalid c hc⟩
  have hfold := restore_fold_jobs (st.database_connections.filter schedEnabled) st
    hvalid' (by rw [hjobs]; simpa using hkeys)
  have hjobs' : (startup_restore_schedules st).jobs
      = (st.database_connections.filter schedEnabled).map restoredJob := by
    unfold startup_restore_schedules
    rw [htake, hfold, hjobs]
    simp
  refine ⟨hjobs', by rw [hjobs']; simp, ?_⟩
  intro c hc
  show (startup_restore_schedules st).jobs.filter (fun j => j.arg == c.id) = _
  rw [hjobs']
  exact filter_restoredJob_map c _ hkeys hc

/-- A persisted enabled daily schedule descriptor. -/
def dailySchedDoc : ScheduleDoc :=
  { interval_type := "daily", interval_value := 1, custom_cron := none,
    enabled := true, description := "Every 1 day(s)", next_run := none }

/-- A connection with a persisted enabled daily schedule. -/
def mkSchedConn (k : Nat) : ConnDoc :=
  { mkConnDoc exMongoCreate k 0 with schedule := some dailySchedDoc }

/-- A registry of 101 connections with enabled persisted schedules and an
idle scheduler. -/
def c5St : St :=
  { database_connections := (List.range 101).map mkSchedConn
    datasets := []
    dataset_data := []
    passwords := []
    jobs := []
    scheduled_jobs := []
    ctr := 1000 }

set_option maxRecDepth 100000 in
/-- C5 counterexample: against a registry with 101 enabled-schedule
connections the startup restore registers only 100 live triggers — the
restore query is capped at the first 100. -/
theorem startup_restore_cap_exceeded :
    (c5St.database_connections.filter schedEnabled).length = 101
    ∧ (startup_restore_schedules c5St).jobs.length = 100 := by
  decide

/-- Two enabled-schedule connections and an idle scheduler. -/
def c5SmallSt : St :=
  { database_connections := [mkSchedConn 0, mkSchedConn 1]
    datasets := []
    dataset_data := []
    passwords := []
    jobs := []
    scheduled_jobs := []
    ctr := 5 }

theorem startup_restore_spec_witness :
    (startup_restore_schedules c5SmallSt).jobs.length = 2
    ∧ jobsFor (startup_restore_schedules c5SmallSt) 1 = [restoredJob (mkSchedConn 1)] := by
  obtain ⟨_, h2, h3⟩ := startup_restore_spec c5SmallSt rfl (by decide) (by decide) (by decide)
  exact ⟨h2.trans (by decide), h3 (mkSchedConn 1) (by decide)⟩

end DataViz
